import Mathlib

set_option maxRecDepth 100000

/-!
Verification of the HireMate field-mapping and learning engine.

The definitions below are a shallow embedding of the Python sources:
  backend/app/utils/fingerprint.py
  backend/app/services/field_normalization.py
  backend/app/services/form_field_mapper.py
  backend/app/api/v1/chrome_extension/routes.py
Machine reals (timestamps) are modelled as natural-number ticks, confidences
as exact rationals, Python `None` as `Option`, and the SQLAlchemy stores as
lists of records.  All definitions are computable so that concrete runs can
be settled with `decide` or `rfl`.
-/

namespace HireMate

/-! ## ASCII string primitives (Python `str` operations restricted to ASCII) -/

/-- Python whitespace characters recognised by `str.strip` and regex `\s`
(ASCII fragment): space, tab, newline, carriage return, form feed,
vertical tab. -/
def isPyWS (c : Char) : Bool :=
  c = ' ' || c = Char.ofNat 9 || c = Char.ofNat 10 || c = Char.ofNat 13 ||
  c = Char.ofNat 12 || c = Char.ofNat 11

/-- ASCII lowercasing, as performed by Python `str.lower` on ASCII data. -/
def pyLowerChar (c : Char) : Char :=
  if 'A' ≤ c ∧ c ≤ 'Z' then Char.ofNat (c.toNat + 32) else c

def pyLowerL (l : List Char) : List Char := l.map pyLowerChar

def pyLower (s : String) : String := ⟨pyLowerL s.data⟩

def pyStripL (l : List Char) : List Char :=
  ((l.dropWhile isPyWS).reverse.dropWhile isPyWS).reverse

/-- Python `str.strip()`. -/
def pyStrip (s : String) : String := ⟨pyStripL s.data⟩

/-- Membership of a char in the class `[a-z0-9 ]`. -/
def isLowerAlnumSpace (c : Char) : Bool :=
  ('a' ≤ c && c ≤ 'z') || ('0' ≤ c && c ≤ '9') || c = ' '

/-- `re.sub(r"[^a-z0-9 ]", " ", text)`: each offending char becomes one space. -/
def subNonAlnumEach (l : List Char) : List Char :=
  l.map (fun c => if isLowerAlnumSpace c then c else ' ')

/-- Helper for run-collapsing substitution: replace each maximal run of
chars satisfying `p` by a single `' '`; `inRun` records whether the previous
char was in a run. -/
def collapseRunsAux (p : Char → Bool) : Bool → List Char → List Char
  | _, [] => []
  | inRun, c :: rest =>
    if p c then
      if inRun then collapseRunsAux p true rest
      else ' ' :: collapseRunsAux p true rest
    else c :: collapseRunsAux p false rest

/-- `re.sub(r"\s+", " ", text)`: each maximal whitespace run becomes one space. -/
def collapseWS (l : List Char) : List Char := collapseRunsAux isPyWS false l

/-- `re.sub(r"[^a-z0-9 ]+", " ", text)`: each maximal offending run becomes
one space (used by `_norm` in form_field_mapper.py). -/
def subNonAlnumRuns (l : List Char) : List Char :=
  collapseRunsAux (fun d => !isLowerAlnumSpace d) false l

/-- `normalize_label` from fingerprint.py: lowercase, strip, replace each char
outside `[a-z0-9 ]` by a space, collapse whitespace, strip. -/
def normalize_label (s : String) : String :=
  ⟨pyStripL (collapseWS (subNonAlnumEach (pyStripL (pyLowerL s.data))))⟩

/-- `_norm` from form_field_mapper.py: lowercase, replace each run outside
`[a-z0-9 ]` by a space, collapse whitespace, strip. -/
def pyNorm (s : String) : String :=
  ⟨pyStripL (collapseWS (subNonAlnumRuns (pyLowerL s.data)))⟩

/-! ## Python-compatible string ordering (code-point lexicographic) -/

/-- Code-point lexicographic `≤` on char lists, matching Python string
comparison for the ASCII data produced by `normalize_label`. -/
def lexLe : List Char → List Char → Bool
  | [], _ => true
  | _ :: _, [] => false
  | a :: as, b :: bs =>
    if a = b then lexLe as bs else decide (a.toNat < b.toNat)

/-- String `≤` via code points, as used by Python `sorted`. -/
def strLe (a b : String) : Bool := lexLe a.data b.data

theorem lexLe_total : ∀ as bs, lexLe as bs = true ∨ lexLe bs as = true
  | [], _ => Or.inl rfl
  | _ :: _, [] => Or.inr rfl
  | a :: as, b :: bs => by
    by_cases hab : a = b
    · subst hab
      simpa [lexLe] using lexLe_total as bs
    · have hba : b ≠ a := fun h => hab h.symm
      have : a.toNat ≠ b.toNat := by
        intro h
        have h2 := congrArg Char.ofNat h
        rw [Char.ofNat_toNat, Char.ofNat_toNat] at h2
        exact hab h2
      rcases Nat.lt_or_ge a.toNat b.toNat with h | h
      · exact Or.inl (by simp [lexLe, hab, h])
      · have : b.toNat < a.toNat := lt_of_le_of_ne h (fun hh => this hh.symm)
        exact Or.inr (by simp [lexLe, hba, this])

theorem char_toNat_inj {a b : Char} (h : a.toNat = b.toNat) : a = b := by
  have h2 := congrArg Char.ofNat h
  rwa [Char.ofNat_toNat, Char.ofNat_toNat] at h2

theorem lexLe_antisymm : ∀ as bs, lexLe as bs = true → lexLe bs as = true → as = bs
  | [], [], _, _ => rfl
  | [], _ :: _, _, h2 => by simp [lexLe] at h2
  | _ :: _, [], h1, _ => by simp [lexLe] at h1
  | a :: as, b :: bs, h1, h2 => by
    by_cases hab : a = b
    · subst hab
      simp only [lexLe, if_pos rfl] at h1 h2
      exact congrArg (a :: ·) (lexLe_antisymm as bs h1 h2)
    · have hba : b ≠ a := fun h => hab h.symm
      simp only [lexLe, if_neg hab, decide_eq_true_eq] at h1
      simp only [lexLe, if_neg hba, decide_eq_true_eq] at h2
      exact absurd h1 (Nat.not_lt.mpr (Nat.le_of_lt h2))

theorem lexLe_trans : ∀ as bs cs, lexLe as bs = true → lexLe bs cs = true →
    lexLe as cs = true
  | [], _, _, _, _ => rfl
  | _ :: _, [], _, h1, _ => by simp [lexLe] at h1
  | _ :: _, _ :: _, [], _, h2 => by simp [lexLe] at h2
  | a :: as, b :: bs, c :: cs, h1, h2 => by
    by_cases hab : a = b <;> by_cases hbc : b = c
    · subst hab; subst hbc
      simp only [lexLe, if_pos rfl] at h1 h2 ⊢
      exact lexLe_trans as bs cs h1 h2
    · subst hab
      simpa [lexLe, hbc] using h2
    · subst hbc
      simpa [lexLe, hab] using h1
    · simp only [lexLe, if_neg hab, decide_eq_true_eq] at h1
      simp only [lexLe, if_neg hbc, decide_eq_true_eq] at h2
      have hac : a ≠ c := by
        intro h; subst h
        exact absurd (Nat.lt_trans h1 h2) (Nat.lt_irrefl _)
      simp [lexLe, hac, Nat.lt_trans h1 h2]

/-- The propositional relation used for sorting option strings. -/
def strLeR (a b : String) : Prop := strLe a b = true

instance : DecidableRel strLeR := fun a b => by
  unfold strLeR; infer_instance

instance : IsTotal String strLeR :=
  ⟨fun a b => lexLe_total a.data b.data⟩

instance : IsTrans String strLeR :=
  ⟨fun a b c => lexLe_trans a.data b.data c.data⟩

instance : IsAntisymm String strLeR :=
  ⟨fun a b h1 h2 => by
    cases a; cases b
    exact congrArg String.mk (lexLe_antisymm _ _ h1 h2)⟩

/-- Python `sorted` on a list of strings. -/
def pySorted (l : List String) : List String := l.insertionSort strLeR

theorem pySorted_perm_eq {l₁ l₂ : List String} (h : l₁.Perm l₂) :
    pySorted l₁ = pySorted l₂ :=
  List.eq_of_perm_of_sorted
    (((List.perm_insertionSort strLeR l₁).trans h).trans
      (List.perm_insertionSort strLeR l₂).symm)
    (List.sorted_insertionSort strLeR l₁)
    (List.sorted_insertionSort strLeR l₂)

/-! ## SHA-256 (as used through Python `hashlib.sha256`)

Words are naturals kept below `2 ^ 32`; every addition is reduced modulo
`2 ^ 32` exactly where the 32-bit implementation overflows. -/

namespace Sha256

def M32 : Nat := 4294967296

def rotr (n x : Nat) : Nat := ((x >>> n) ||| (x <<< (32 - n))) % M32

def bsig0 (x : Nat) : Nat := rotr 2 x ^^^ rotr 13 x ^^^ rotr 22 x

def bsig1 (x : Nat) : Nat := rotr 6 x ^^^ rotr 11 x ^^^ rotr 25 x

def ssig0 (x : Nat) : Nat := rotr 7 x ^^^ rotr 18 x ^^^ (x >>> 3)

def ssig1 (x : Nat) : Nat := rotr 17 x ^^^ rotr 19 x ^^^ (x >>> 10)

def ch (x y z : Nat) : Nat := (x &&& y) ^^^ ((x ^^^ (M32 - 1)) &&& z)

def maj (x y z : Nat) : Nat := (x &&& y) ^^^ (x &&& z) ^^^ (y &&& z)

/-- The 64 round constants of FIPS 180-4 §4.2.2, in decimal. -/
def K : List Nat :=
  [1116352408, 1899447441, 3049323471, 3921009573,
   961987163, 1508970993, 2453635748, 2870763221,
   3624381080, 310598401, 607225278, 1426881987,
   1925078388, 2162078206, 2614888103, 3248222580,
   3835390401, 4022224774, 264347078, 604807628,
   770255983, 1249150122, 1555081692, 1996064986,
   2554220882, 2821834349, 2952996808, 3210313671,
   3336571891, 3584528711, 113926993, 338241895,
   666307205, 773529912, 1294757372, 1396182291,
   1695183700, 1986661051, 2177026350, 2456956037,
   2730485921, 2820302411, 3259730800, 3345764771,
   3516065817, 3600352804, 4094571909, 275423344,
   430227734, 506948616, 659060556, 883997877,
   958139571, 1322822218, 1537002063, 1747873779,
   1955562222, 2024104815, 2227730452, 2361852424,
   2428436474, 2756734187, 3204031479, 3329325298]

/-- 8-byte big-endian encoding of a natural (bit-length field). -/
def be8 (n : Nat) : List Nat :=
  [(n >>> 56) % 256, (n >>> 48) % 256, (n >>> 40) % 256, (n >>> 32) % 256,
   (n >>> 24) % 256, (n >>> 16) % 256, (n >>> 8) % 256, n % 256]

/-- Merkle–Damgård padding: `0x80`, zero bytes to 56 mod 64, 64-bit length. -/
def pad (msg : List Nat) : List Nat :=
  let len := msg.length
  let zeros := (120 - ((len + 1) % 64)) % 64
  msg ++ (0x80 :: List.replicate zeros 0) ++ be8 (len * 8)

def chunksGo : Nat → List Nat → List (List Nat)
  | _, [] => []
  | 0, _ => []
  | fuel + 1, l => l.take 64 :: chunksGo fuel (l.drop 64)

def chunks64 (l : List Nat) : List (List Nat) := chunksGo l.length l

def toWords : List Nat → List Nat
  | a :: b :: c :: d :: rest => (((a * 256 + b) * 256 + c) * 256 + d) :: toWords rest
  | _ => []

/-- Extend the 16 message words to 64 via the message schedule. -/
def extendWords : Nat → List Nat → List Nat
  | 0, w => w
  | n + 1, w =>
    let i := w.length
    let nw := (ssig1 (w.getD (i - 2) 0) + w.getD (i - 7) 0 +
               ssig0 (w.getD (i - 15) 0) + w.getD (i - 16) 0) % M32
    extendWords n (w ++ [nw])

structure St where
  a : Nat
  b : Nat
  c : Nat
  d : Nat
  e : Nat
  f : Nat
  g : Nat
  h : Nat
deriving DecidableEq

def round (st : St) (kw : Nat × Nat) : St :=
  let t1 := (st.h + bsig1 st.e + ch st.e st.f st.g + kw.1 + kw.2) % M32
  let t2 := (bsig0 st.a + maj st.a st.b st.c) % M32
  ⟨(t1 + t2) % M32, st.a, st.b, st.c, (st.d + t1) % M32, st.e, st.f, st.g⟩

/-- The eight initial hash words of FIPS 180-4 §5.3.3, in decimal. -/
def initSt : St :=
  ⟨1779033703, 3144134277, 1013904242, 2773480762,
   1359893119, 2600822924, 528734635, 1541459225⟩

def addSt (x y : St) : St :=
  ⟨(x.a + y.a) % M32, (x.b + y.b) % M32, (x.c + y.c) % M32, (x.d + y.d) % M32,
   (x.e + y.e) % M32, (x.f + y.f) % M32, (x.g + y.g) % M32, (x.h + y.h) % M32⟩

def compress (st : St) (block : List Nat) : St :=
  let w := extendWords 48 (toWords block)
  addSt st ((K.zip w).foldl round st)

/-- The eight final hash words of SHA-256 over a byte list. -/
def hashWords (msg : List Nat) : St :=
  ((chunks64 (pad msg)).foldl compress initSt)

def hexDigit (n : Nat) : Char :=
  if n < 10 then Char.ofNat (48 + n) else Char.ofNat (87 + n)

def wordHex (n : Nat) : List Char :=
  [hexDigit ((n >>> 28) % 16), hexDigit ((n >>> 24) % 16),
   hexDigit ((n >>> 20) % 16), hexDigit ((n >>> 16) % 16),
   hexDigit ((n >>> 12) % 16), hexDigit ((n >>> 8) % 16),
   hexDigit ((n >>> 4) % 16), hexDigit (n % 16)]

/-- `hashlib.sha256(data).hexdigest()[:32]`: the first 32 hex characters of
the digest, i.e. the first four hash words. -/
def hexDigest32 (msg : List Nat) : String :=
  let st := hashWords msg
  ⟨wordHex st.a ++ wordHex st.b ++ wordHex st.c ++ wordHex st.d⟩

end Sha256

/-! ## Canonical JSON serialization (`json.dumps(..., sort_keys=True,
separators=(",", ":"))` with the default `ensure_ascii=True`) -/

def hexDigitLower (n : Nat) : Char := Sha256.hexDigit n

/-- `\uXXXX` escape body for a BMP code point. -/
def u4 (n : Nat) : List Char :=
  ['\\', 'u', hexDigitLower ((n >>> 12) % 16), hexDigitLower ((n >>> 8) % 16),
   hexDigitLower ((n >>> 4) % 16), hexDigitLower (n % 16)]

/-- Python `json` escaping of one character: `"` and `\` are backslashed, the
five short escapes apply, every other char outside `0x20`–`0x7e` becomes
`\uXXXX` (a surrogate pair above the BMP). -/
def jsonEscapeChar (c : Char) : List Char :=
  if c = '"' then ['\\', '"']
  else if c = '\\' then ['\\', '\\']
  else if c = Char.ofNat 8 then ['\\', 'b']
  else if c = Char.ofNat 9 then ['\\', 't']
  else if c = Char.ofNat 10 then ['\\', 'n']
  else if c = Char.ofNat 12 then ['\\', 'f']
  else if c = Char.ofNat 13 then ['\\', 'r']
  else if 0x20 ≤ c.toNat ∧ c.toNat ≤ 0x7e then [c]
  else if c.toNat ≤ 0xffff then u4 c.toNat
  else
    let n := c.toNat - 0x10000
    u4 (0xd800 + (n >>> 10)) ++ u4 (0xdc00 + (n &&& 0x3ff))

/-- A JSON string literal for `s`. -/
def jsonStr (s : String) : String :=
  ⟨'"' :: (s.data.flatMap jsonEscapeChar) ++ ['"']⟩

/-- A JSON array of string literals, `","`-separated with no whitespace. -/
def jsonStrList (l : List String) : String :=
  ⟨'[' :: (String.intercalate "," (l.map jsonStr)).data ++ [']']⟩

/-- UTF-8 bytes of an all-ASCII string (the escaped JSON payload). -/
def strBytes (s : String) : List Nat := s.data.map Char.toNat

/-! ## The field record and `compute_field_fingerprint` (fingerprint.py) -/

/-- A scraped form field, as the dict arriving at the API.  Absent keys are
`none`; Python's falsy-`or` chains are modelled explicitly. -/
structure Field where
  label : Option String := none
  placeholder : Option String := none
  name : Option String := none
  id : Option String := none
  type : Option String := none
  options : Option (List String) := none
  selector : Option String := none
  domId : Option String := none
  tag : Option String := none
  index : Option String := none
  platform : Option String := none
deriving DecidableEq

/-- Python `a or b or c or ""` over optional strings: the first value that is
present and non-empty, else `""`. -/
def firstTruthy : List (Option String) → String
  | [] => ""
  | some s :: rest => if s = "" then firstTruthy rest else s
  | none :: rest => firstTruthy rest

/-- `field.get("options") or []`. -/
def fieldOptions (f : Field) : List String := (f.options).getD []

/-- Is `field.get("label")` truthy (present and non-empty)?  When it is not,
the fingerprint falls back to the placeholder and then the name. -/
def labelTruthy (f : Field) : Bool :=
  match f.label with
  | some s => s ≠ ""
  | none => false

/-- `compute_field_fingerprint` from fingerprint.py: normalize the effective
label, lowercase-trim the type, normalize-and-sort the options, serialize as
canonical JSON with alphabetical keys, SHA-256, first 32 hex chars. -/
def compute_field_fingerprint (f : Field) : String :=
  let label := normalize_label (firstTruthy [f.label, f.placeholder, f.name])
  let ftype := pyStrip (pyLower ((f.type).getD ""))
  let options := pySorted ((fieldOptions f).map normalize_label)
  let payload : String :=
    "\x7b\"label\":" ++ jsonStr label ++ ",\"options\":" ++
      jsonStrList options ++ ",\"type\":" ++ jsonStr ftype ++ "\x7d"
  Sha256.hexDigest32 (strBytes payload)

/-! ## A little regex engine

Just enough of Python `re` for the patterns appearing in the sources:
literal chars, `\s*`, `\b`, a small char class, `^`/`$` anchors, and
alternation.  `re.IGNORECASE` is obtained by lowercasing the subject first
(every pattern in the sources is already lowercase). -/

inductive RTok where
  | lit (c : Char)
  | wsStar
  | wordB
  | cls (cs : List Char)
deriving DecidableEq

/-- One alternative of a pattern: optional `^`/`$` anchors and a token list. -/
structure RPat where
  sa : Bool := false
  ea : Bool := false
  toks : List RTok
deriving DecidableEq

def isWordChar (c : Char) : Bool :=
  ('a' ≤ c && c ≤ 'z') || ('A' ≤ c && c ≤ 'Z') || ('0' ≤ c && c ≤ '9') || c = '_'

/-- `\b`: true when exactly one of the neighbouring positions holds a word
char (a missing neighbour counts as non-word). -/
def isBoundary (prev next : Option Char) : Bool :=
  ((prev.map isWordChar).getD false) != ((next.map isWordChar).getD false)

/-- Fuel-driven token matcher at a fixed position.  `prev` is the char just
before the position (for `\b`); with `ea` set, the match must end at the end
of the subject (or just before a final newline, as Python `$`). -/
def matchT (ea : Bool) : Nat → Option Char → List RTok → List Char → Bool
  | 0, _, _, _ => false
  | _ + 1, _, [], s => !ea || s.isEmpty || s = [Char.ofNat 10]
  | _ + 1, _, RTok.lit _ :: _, [] => false
  | fuel + 1, _, RTok.lit c :: ts, x :: s =>
    x = c && matchT ea fuel (some x) ts s
  | fuel + 1, prev, RTok.wsStar :: ts, s =>
    matchT ea fuel prev ts s ||
      (match s with
       | [] => false
       | x :: s2 => isPyWS x && matchT ea fuel (some x) (RTok.wsStar :: ts) s2)
  | _ + 1, _, RTok.cls _ :: _, [] => false
  | fuel + 1, _, RTok.cls cs :: ts, x :: s =>
    cs.contains x && matchT ea fuel (some x) ts s
  | fuel + 1, prev, RTok.wordB :: ts, s =>
    isBoundary prev s.head? && matchT ea fuel prev ts s

/-- Try a match at every start position (unanchored `re.search`). -/
def searchFrom (ea : Bool) (toks : List RTok) : Option Char → List Char → Bool
  | prev, s =>
    matchT ea (toks.length + s.length + 1) prev toks s ||
      (match s with
       | [] => false
       | x :: s2 => searchFrom ea toks (some x) s2)

/-- `re.search` of one alternative against a char list. -/
def searchPat (p : RPat) (s : List Char) : Bool :=
  if p.sa then matchT p.ea (p.toks.length + s.length + 1) none p.toks s
  else searchFrom p.ea p.toks none s

/-- `re.search` of an alternation against a string. -/
def reSearch (ps : List RPat) (s : String) : Bool :=
  ps.any (fun p => searchPat p s.data)

/-- `re.search(pat, s, re.IGNORECASE)` for the lowercase sources patterns. -/
def reSearchCI (ps : List RPat) (s : String) : Bool := reSearch ps (pyLower s)

def lits (s : String) : List RTok := s.data.map RTok.lit

/-! ## FieldNormalizationService (field_normalization.py) -/

/-- The `PATTERNS` table, keys in registration order; each pattern string is
rendered into the engine above. -/
def PATTERNS : List (String × List RPat) :=
  [("first_name",
     [⟨false, false, lits "first" ++ [RTok.wsStar] ++ lits "name"⟩,
      ⟨false, false, lits "fname"⟩,
      ⟨false, false, lits "given" ++ [RTok.wsStar] ++ lits "name"⟩]),
   ("last_name",
     [⟨false, false, lits "last" ++ [RTok.wsStar] ++ lits "name"⟩,
      ⟨false, false, lits "lname"⟩,
      ⟨false, false, lits "surname"⟩,
      ⟨false, false, lits "family" ++ [RTok.wsStar] ++ lits "name"⟩]),
   ("full_name",
     [⟨true, true, lits "name"⟩,
      ⟨false, false, lits "full" ++ [RTok.wsStar] ++ lits "name"⟩,
      ⟨false, false, lits "candidate" ++ [RTok.wsStar] ++ lits "name"⟩]),
   ("email",
     [⟨false, false, lits "email"⟩,
      ⟨false, false, lits "e-mail"⟩]),
   ("phone",
     [⟨false, false, lits "phone"⟩,
      ⟨false, false, lits "mobile"⟩,
      ⟨false, false, lits "cell"⟩,
      ⟨false, false, lits "contact" ++ [RTok.wsStar] ++ lits "number"⟩]),
   ("linkedin", [⟨false, false, lits "linkedin"⟩]),
   ("github", [⟨false, false, lits "github"⟩]),
   ("portfolio",
     [⟨false, false, lits "portfolio"⟩,
      ⟨false, false, lits "website"⟩,
      ⟨false, false, lits "personal" ++ [RTok.wsStar] ++ lits "site"⟩]),
   ("resume",
     [⟨false, false, lits "resume"⟩,
      ⟨false, false, lits "cv"⟩,
      ⟨false, false, lits "curriculum" ++ [RTok.wsStar] ++ lits "vitae"⟩]),
   ("cover_letter",
     [⟨false, false, lits "cover" ++ [RTok.wsStar] ++ lits "letter"⟩])]

/-- The body of the key loop: does some pattern of `ps` match some non-empty
signal case-insensitively? -/
def keyMatches (ps : List RPat) (signals : List String) : Bool :=
  ps.any (fun p => signals.any (fun t => t ≠ "" && reSearchCI [p] t))

/-- The `for key, patterns in PATTERNS` loop with its early `return key`. -/
def normalizeGo (signals : List String) : List (String × List RPat) → Option String
  | [] => none
  | (key, ps) :: rest =>
    if keyMatches ps signals then some key else normalizeGo signals rest

/-- `FieldNormalizationService.normalize`: first key whose patterns match one
of label/name/id, in table order; `none` when nothing matches. -/
def fieldNormalize (label name field_id : String) : Option String :=
  normalizeGo [label, name, field_id] PATTERNS

/-! ## form_field_mapper.py: value post-processing helpers -/

/-- Is `needle` a contiguous sublist of `hay`? -/
def listInfix (needle : List Char) : List Char → Bool
  | [] => needle.isEmpty
  | c :: rest => needle.isPrefixOf (c :: rest) || listInfix needle rest

/-- Python `needle in hay` on strings. -/
def strContains (hay needle : String) : Bool := listInfix needle.data hay.data

/-- Python `s.startswith(pre)`. -/
def strStarts (s pre : String) : Bool := pre.data.isPrefixOf s.data

/-- Python truthy `a or b` over optional strings (`None` and `""` are falsy). -/
def por (a b : Option String) : Option String :=
  match a with
  | some s => if s = "" then b else some s
  | none => b

/-- Python truthiness of an optional string: present and non-empty (an
`if x:` test on `x: Optional[str]`). -/
def optTruthy (o : Option String) : Bool :=
  match o with
  | some s => s ≠ ""
  | none => false

/-- The apostrophe character, `'`. -/
def apos : Char := Char.ofNat 39

/-- `"'"` as a string, for building reason messages. -/
def aposS : String := ⟨[apos]⟩

structure Mapping where
  value : Option String := none
  confidence : Option ℚ := none
  reason : Option String := none
deriving DecidableEq

structure Exp where
  startDate : Option String := none
  start_year : Option String := none
  endDate : Option String := none
  end_year : Option String := none
deriving DecidableEq

/-- The candidate profile: the flat key/value view the cascade reads, plus the
`experiences` list consumed by `_calculate_years_experience`. -/
structure Profile where
  flat : List (String × String) := []
  experiences : List Exp := []
deriving DecidableEq

def profileGet (p : Profile) (k : String) : Option String := p.flat.lookup k

def profileHasKey (p : Profile) (k : String) : Bool :=
  (p.flat.lookup k).isSome

/-- `_COUNTRY_OPTION_FALLBACK` from form_field_mapper.py. -/
def COUNTRY_OPTION_FALLBACK : List (String × String) :=
  [("india", "India +91"), ("united states", "United States +1"),
   ("us", "United States +1"), ("usa", "United States +1"),
   ("united kingdom", "United Kingdom +44"), ("uk", "United Kingdom +44"),
   ("canada", "Canada +1"), ("australia", "Australia +61"),
   ("germany", "Germany +49"), ("france", "France +33"),
   ("japan", "Japan +81"), ("china", "China +86"), ("brazil", "Brazil +55"),
   ("mexico", "Mexico +52"), ("spain", "Spain +34"), ("italy", "Italy +39"),
   ("netherlands", "Netherlands +31"), ("south korea", "South Korea +82"),
   ("indonesia", "Indonesia +62"), ("russia", "Russia +7"),
   ("saudi arabia", "Saudi Arabia +966"),
   ("uae", "United Arab Emirates +971"),
   ("united arab emirates", "United Arab Emirates +971"),
   ("singapore", "Singapore +65"), ("malaysia", "Malaysia +60"),
   ("philippines", "Philippines +63"), ("pakistan", "Pakistan +92"),
   ("bangladesh", "Bangladesh +880"), ("south africa", "South Africa +27"),
   ("nigeria", "Nigeria +234"), ("egypt", "Egypt +20"),
   ("ireland", "Ireland +353"), ("new zealand", "New Zealand +64"),
   ("sweden", "Sweden +46"), ("poland", "Poland +48"),
   ("switzerland", "Switzerland +41"), ("belgium", "Belgium +32"),
   ("austria", "Austria +43")]

def isAsciiDigit (c : Char) : Bool := '0' ≤ c && c ≤ '9'

/-- Python `s.isdigit()` (ASCII fragment): non-empty and all digits. -/
def pyIsDigit (s : String) : Bool := s ≠ "" && s.data.all isAsciiDigit

/-- `_looks_like_phone`: at least 9 digits once `[\s\-\(\)\.]` is removed. -/
def looksLikePhone (value : String) : Bool :=
  let s := value.data.filter
    (fun c => !(isPyWS c || c = '-' || c = '(' || c = ')' || c = '.'))
  decide (s.length ≥ 9) && s.all isAsciiDigit

/-- `_looks_like_email`. -/
def looksLikeEmail (value : String) : Bool :=
  let s := pyStrip value
  strContains s "@" && strContains s "." && decide (s.data.length > 5)

/-- Char class of `^[a-zA-Z\s\-\.]+$` in `_looks_like_name`. -/
def isNameChar (c : Char) : Bool :=
  ('a' ≤ c && c ≤ 'z') || ('A' ≤ c && c ≤ 'Z') || isPyWS c || c = '-' || c = '.'

/-- `_looks_like_name`. -/
def looksLikeName (value : String) : Bool :=
  let s := pyStrip value
  if s = "" || decide (s.data.length > 80) then false
  else if looksLikePhone s || looksLikeEmail s || pyIsDigit s then false
  else s.data.all isNameChar

/-- `_looks_like_location`. -/
def looksLikeLocation (value : String) : Bool :=
  let s := pyLower (pyStrip value)
  if strContains s "," &&
      (["india", "usa", "uk", "city", "bangalore", "london"].any
        (fun kw => strContains s kw)) then true
  else strContains s "(" && strContains s "+"

/-- `_is_education_like`. -/
def isEducationLike (value : String) : Bool :=
  if value = "" then false
  else
    let v := pyLower value
    if ["b.tech", "btech", "m.tech", "mtech", "bachelor", "degree",
        "university", "college", "engineering", "computer science",
        "aug ", "apr "].any (fun kw => strContains v kw) then true
    else if decide ((pyStrip v).data.length ≥ 20) &&
        (["in ", " and ", "from "].any (fun kw => strContains v kw)) then true
    else false

/-- `_is_year_only_field`. -/
def isYearOnlyField (field_label field_text : String) : Bool :=
  let lbl := pyLower field_label
  let txt := pyLower field_text
  strContains lbl "year" || strContains txt "year" ||
    (strContains lbl "start" && strContains lbl "date") ||
    (strContains lbl "date" && strContains txt "start")

/-- `_is_yes_no_employee_question`. -/
def isYesNoEmployeeQuestion (field_label field_text : String) : Bool :=
  let combined := pyLower (field_label ++ " " ++ field_text)
  strContains combined "are you currently" || strContains combined "are you a " ||
    strContains combined "currently a " ||
    strContains combined "previously worked" || strContains combined "worked at" ||
    strContains combined "have you previously" ||
    strContains combined "do you know anyone" ||
    strContains combined "know anyone at" ||
    strContains combined "employee?" ||
    strContains combined "if \"yes\"" || strContains combined "if \"no\""

/-- `_is_school_or_degree_field`. -/
def isSchoolOrDegreeField (field_label field_text : String) : Bool :=
  let combined := pyLower (field_label ++ " " ++ field_text)
  let school_kw := strContains combined "school" ||
    strContains combined "university" || strContains combined "college" ||
    strContains combined "institution"
  let degree_kw := strContains combined "degree" ||
    strContains combined "qualification"
  school_kw || degree_kw

/-- `_is_linkedin_field`. -/
def isLinkedinField (field_label field_text : String) : Bool :=
  let combined := pyLower (field_label ++ " " ++ field_text)
  strContains combined "linkedin" &&
    (strContains combined "url" || strContains combined "profile" ||
     strContains combined "link")

/-! ### Small scanners standing in for the `re` calls of the mapper -/

/-- Does a `\b(19|20)\d{2}\b` match start right here? -/
def yearAt (prev : Option Char) (c1 : Char) (rest : List Char) :
    Option (List Char) :=
  if ((prev.map isWordChar).getD false) = false then
    match rest with
    | c2 :: c3 :: c4 :: tail =>
      if ((c1 = '1' && c2 = '9') || (c1 = '2' && c2 = '0')) &&
          isAsciiDigit c3 && isAsciiDigit c4 &&
          ((tail.head?.map isWordChar).getD false) = false then
        some [c1, c2, c3, c4]
      else none
    | _ => none
  else none

/-- `re.search(r"\b(19|20)\d{2}\b", s)`: the first 4-digit year starting 19
or 20 with word boundaries; returns its digits. -/
def findYearGo (prev : Option Char) : List Char → Option (List Char)
  | [] => none
  | c1 :: rest =>
    match yearAt prev c1 rest with
    | some y => some y
    | none => findYearGo (some c1) rest

def pyFindYear (s : String) : Option String :=
  (findYearGo none s.data).map (fun l => ⟨l⟩)

/-- `re.findall(r"\b(19|20)\d{2}\b", s)`: the *group* matches, i.e. the
`"19"`/`"20"` prefixes of each non-overlapping year match; fuel-driven. -/
def findYearPrefixesGo : Nat → Option Char → List Char → List Nat
  | 0, _, _ => []
  | _ + 1, _, [] => []
  | fuel + 1, prev, c1 :: rest =>
    match yearAt prev c1 rest with
    | some _ =>
      (if c1 = '1' then 19 else 20) ::
        findYearPrefixesGo fuel (some (rest.getD 2 c1)) (rest.drop 3)
    | none => findYearPrefixesGo fuel (some c1) rest

def pyFindYearPrefixes (s : String) : List Nat :=
  findYearPrefixesGo s.data.length none s.data

/-- Leftmost maximal digit run: group 1 of
`re.search(r"(\d+)\+?\s*(?:years?|yrs?)?", s, re.I)` and of
`re.search(r"(\d+)", s)`. -/
def firstDigitRun : List Char → Option (List Char)
  | [] => none
  | c :: rest =>
    if isAsciiDigit c then some (c :: rest.takeWhile isAsciiDigit)
    else firstDigitRun rest

def pyFirstDigitRun (s : String) : Option String :=
  (firstDigitRun s.data).map (fun l => ⟨l⟩)

/-- `re.match(r"^\d{8,}$", s)`: all digits, at least eight of them. -/
def isLongDigits (s : String) : Bool :=
  decide (s.data.length ≥ 8) && s.data.all isAsciiDigit

/-- `re.findall(r"\b[a-z]{4,}\b", s)` on a lowercased string: the maximal
word-character runs made of letters only with length at least 4. -/
def wordRuns (s : String) : List String :=
  ((s.data.splitOnP (fun c => !isWordChar c)).filter
    (fun run => decide (run.length ≥ 4) &&
      run.all (fun c => 'a' ≤ c && c ≤ 'z'))).map (fun l => ⟨l⟩)

def digitsToNat (l : List Char) : Nat :=
  l.foldl (fun acc c => acc * 10 + (c.toNat - 48)) 0

/-- `_parse_year_from_date`. -/
def parseYearFromDate (s : String) : Option Nat :=
  if s = "" then none else (findYearGo none s.data).map digitsToNat

/-- `_parse_month_from_date`. -/
def parseMonthFromDate (s : String) : Option Nat :=
  if s = "" then none
  else
    (([("jan", 1), ("feb", 2), ("mar", 3), ("apr", 4), ("may", 5), ("jun", 6),
       ("jul", 7), ("aug", 8), ("sep", 9), ("oct", 10), ("nov", 11),
       ("dec", 12)].find?
      (fun nm => strContains (pyLower s) nm.1)).map (·.2))

/-- Python `round` (half to even) of `m / 12`. -/
def roundDiv12 (m : Nat) : Nat :=
  let q := m / 12
  let r := m % 12
  if r * 2 < 12 then q
  else if r * 2 > 12 then q + 1
  else if q % 2 = 0 then q else q + 1

/-- `_calculate_years_experience`; `datetime.now()` is passed in as
`(nowY, nowM)`. -/
def calcYearsExperience (nowY nowM : Nat) (profile : Profile) : Option String :=
  let total := por (profileGet profile "totalExperience")
    (profileGet profile "yearsExperience")
  let viaTotal : Option String :=
    match total with
    | some t => pyFirstDigitRun t
    | none => none
  match viaTotal with
  | some d => some d
  | none =>
    if profile.experiences = [] then
      let exp_text := (por (profileGet profile "experience") none).getD ""
      match pyFirstDigitRun exp_text with
      | some d => some d
      | none =>
        let prefixes := pyFindYearPrefixes exp_text
        match prefixes with
        | [] => none
        | _ =>
          let y0 := (prefixes.mergeSort (· ≤ ·)).headD 0
          some (toString (max 1 (nowY - y0)))
    else
      let total_months : Int := profile.experiences.foldl
        (fun acc exp =>
          let start_str := pyStrip ((por exp.startDate exp.start_year).getD "")
          let end_str := pyLower (pyStrip ((por exp.endDate
            (por exp.end_year (some "present"))).getD ""))
          if start_str = "" then acc
          else
            match parseYearFromDate start_str with
            | none => acc
            | some startY =>
              let ym : Nat × Nat :=
                if end_str = "present" || end_str = "current" ||
                    end_str = "now" || end_str = "" then (nowY, nowM)
                else
                  match parseYearFromDate end_str with
                  | some ey => (ey, 6)
                  | none => (startY + 1, 6)
              let startM := (parseMonthFromDate start_str).getD 1
              acc + max 0 (((ym.1 : Int) - startY) * 12 + ((ym.2 : Int) - startM)))
        0
      if total_months > 0 then
        some (toString (max 1 (roundDiv12 total_months.toNat)))
      else none

/-! ### `_clean_field_value` (form_field_mapper.py, lines 452–683) -/

/-- `_norm_apostrophe` (local helper in the dropdown block). -/
def normApostrophe (s : String) : String :=
  pyLower ⟨s.data.map (fun c =>
    if c = Char.ofNat 0x2019 || c = Char.ofNat 0x2018 then apos else c)⟩

/-- The school/institution "Other" option regex of `_clean_field_value`. -/
def schoolOtherPats : List RPat :=
  [⟨false, false, [RTok.wordB] ++ lits "other" ++ [RTok.wordB]⟩,
   ⟨false, false, lits "not" ++ [RTok.wsStar] ++ lits "listed"⟩,
   ⟨false, false, lits "not" ++ [RTok.wsStar] ++ lits "in" ++ [RTok.wsStar] ++ lits "list"⟩,
   ⟨false, false, lits "my" ++ [RTok.wsStar] ++ lits "school" ++ [RTok.wsStar] ++ lits "is"⟩,
   ⟨false, false, lits "specify"⟩,
   ⟨false, false, lits "please" ++ [RTok.wsStar] ++ lits "specify"⟩,
   ⟨false, false, lits "_other"⟩,
   ⟨false, false, lits "other" ++ [RTok.wsStar] ++ [RTok.cls ['(', '-', ':']]⟩]

/-- The company "Other" option regex of `_clean_field_value`. -/
def companyOtherPats : List RPat :=
  [⟨false, false, [RTok.wordB] ++ lits "other" ++ [RTok.wordB]⟩,
   ⟨false, false, lits "not" ++ [RTok.wsStar] ++ lits "listed"⟩,
   ⟨false, false, lits "specify"⟩,
   ⟨false, false, lits "please" ++ [RTok.wsStar] ++ lits "enter"⟩,
   ⟨false, false, lits "company" ++ [RTok.wsStar] ++ lits "name"⟩,
   ⟨false, false, lits "employer"⟩]

/-- The stop-word set subtracted from `val_words`. -/
def institutionStopWords : List String :=
  ["university", "college", "institute", "school", "of", "the", "and"]

/-- The best-overlap loop over options in the school fallback. -/
def bestWordOverlap (valWords : List String) (options : List String) :
    Option String :=
  (options.foldl
    (fun (acc : Option String × Nat) opt =>
      let optWords := (wordRuns (pyLower opt)).dedup
      let overlap := (valWords.filter (fun w => optWords.contains w)).length
      if overlap > acc.2 && overlap ≥ 1 then (some opt, overlap) else acc)
    (none, 0)).1

/-- The dropdown/select containment block of `_clean_field_value` (its final
third, entered when the type is select/combobox and options are present).

`staleOptLower` mirrors a quirk of the source: the second country loop tests
`opt_lower`, a variable left over from the first country loop, i.e. the
lowercasing of the *last* option; when the filtered option list is empty and
the country branch is reached the source raises `NameError` — that branch is
modelled as not matching. -/
def cleanSelectBlock (field : Field) (mapping : Mapping) (field_label field_text : String) : Mapping :=
  let options := (fieldOptions field).filter (fun o => o ≠ "" && pyStrip o ≠ "")
  let v := (mapping.value).getD ""
  let value_str := pyStrip v
  let val_lower := pyLower value_str
  let field_lower := field_label ++ " " ++ field_text
  if options.contains value_str then mapping
  else
    match options.find? (fun o => pyLower o = val_lower ||
        normApostrophe o = normApostrophe value_str) with
    | some option =>
      { value := some option, confidence := some ((mapping.confidence).getD 0.95),
        reason := some ("Matched to dropdown option: " ++ option) }
    | none =>
      let countryPrefix : Option Mapping :=
        if strContains field_lower "country" && val_lower ≠ "" then
          match options.find? (fun o => strStarts (pyLower o) val_lower ||
              strStarts (pyLower o) (val_lower ++ "+")) with
          | some option =>
            some { value := some option,
                   confidence := some ((mapping.confidence).getD 0.95),
                   reason := some ("Country prefix match: " ++ option) }
          | none =>
            let staleOptLower := pyLower (options.getLast?.getD "")
            if strContains staleOptLower val_lower &&
                !(["territory", "ocean", "island", "virgin", "samoa"].any
                  (fun x => strContains staleOptLower x)) then
              match options.head? with
              | some option =>
                some { value := some option,
                       confidence := some ((mapping.confidence).getD 0.9),
                       reason := some ("Country match: " ++ option) }
              | none => none
            else none
        else none
      match countryPrefix with
      | some m => m
      | none =>
        match options.find? (fun o =>
            (strContains (pyLower o) val_lower || strContains val_lower (pyLower o)) &&
            !(strContains field_lower "country" && decide (val_lower.data.length < 15) &&
              (["territory", "ocean", "island", "virgin", "samoa"].any
                (fun x => strContains (pyLower o) x)))) with
        | some option =>
          { value := some option, confidence := some ((mapping.confidence).getD 0.85),
            reason := some ("Partial match to dropdown option: " ++ option) }
        | none =>
          let countryFallback : Option Mapping :=
            if strContains field_lower "country" && val_lower ≠ "" then
              match COUNTRY_OPTION_FALLBACK.lookup val_lower with
              | some constructed =>
                if options.contains constructed then
                  some { value := some constructed,
                         confidence := some ((mapping.confidence).getD 0.95),
                         reason := some ("Country fallback match: " ++ constructed) }
                else
                  some { value := some constructed, confidence := some 0.9,
                         reason := some ("Country fallback (options truncated): " ++ constructed) }
              | none => none
            else none
          match countryFallback with
          | some m => m
          | none =>
            let schoolBranch : Option Mapping :=
              if ["school", "university", "college", "institution"].any
                  (fun kw => strContains field_lower kw) then
                match options.filter (fun o => reSearch schoolOtherPats (pyLower o)) with
                | other :: _ =>
                  some { value := some other, confidence := some 0.75,
                         reason := some ("Institution not in dropdown; selected " ++
                           aposS ++ "Other/Not listed" ++ aposS) }
                | [] =>
                  let val_words := (wordRuns val_lower).dedup.filter
                    (fun w => !institutionStopWords.contains w)
                  let viaWords : Option Mapping :=
                    if val_words ≠ [] then
                      match bestWordOverlap val_words options with
                      | some best =>
                        some { value := some best, confidence := some 0.7,
                               reason := some ("Partial word match: " ++ best) }
                      | none => none
                    else none
                  match viaWords with
                  | some m => some m
                  | none =>
                    if value_str ≠ "" && decide (value_str.data.length > 2) then
                      some { value := some value_str, confidence := some 0.7,
                             reason := some "Institution not in dropdown; returning raw value for Other/specify flow" }
                    else none
              else none
            match schoolBranch with
            | some m => m
            | none =>
              let companyBranch : Option Mapping :=
                if ["company", "employer", "organization"].any
                    (fun kw => strContains field_lower kw) then
                  match options.filter (fun o => reSearch companyOtherPats (pyLower o)) with
                  | other :: _ =>
                    some { value := some other, confidence := some 0.75,
                           reason := some "Company not in dropdown; selected Other" }
                  | [] =>
                    if value_str ≠ "" && decide (value_str.data.length > 2) then
                      some { value := some value_str, confidence := some 0.7,
                             reason := some "Company not in dropdown; returning raw value for Other/specify flow" }
                    else none
                else none
              match companyBranch with
              | some m => m
              | none =>
                { value := none, confidence := some 0,
                  reason := some ("LLM value " ++ aposS ++ value_str ++ aposS ++
                    " not found in dropdown options") }

/-- `field_label` as computed by `_clean_field_value`:
`str(field.get("label", "")).lower()`. -/
def fieldLabelOf (field : Field) : String := pyLower ((field.label).getD "")

/-- `field_type` as computed by `_clean_field_value`. -/
def fieldTypeOf (field : Field) : String := pyLower ((field.type).getD "")

/-- `field_text` as computed by `_clean_field_value`:
`_norm(" ".join(label, name, placeholder))`. -/
def fieldTextOf (field : Field) : String :=
  pyNorm (((field.label).getD "") ++ " " ++ ((field.name).getD "") ++ " " ++
    ((field.placeholder).getD ""))

/-- `is_country_code_field` as computed by `_clean_field_value`. -/
def isCountryCodeFieldOf (field : Field) : Bool :=
  let field_sel := pyLower ((por field.selector field.domId).getD "")
  let field_name := pyLower ((por field.name none).getD "")
  strContains field_sel "country-codes" ||
    strContains field_sel "country-code" ||
    strContains field_name "countrycode" ||
    strContains (fieldLabelOf field) "country code"

/-- `_clean_field_value`: semantic-safety cleanup of one generative mapping.
`datetime.now()` (used only via `_calculate_years_experience`) enters as
`(nowY, nowM)`. -/
def cleanFieldValue (nowY nowM : Nat) (field : Field) (mapping : Mapping)
    (profile : Profile) : Mapping :=
  match mapping.value with
  | none => mapping
  | some v =>
    if v = "" then mapping
    else
      let field_label := fieldLabelOf field
      let field_type := fieldTypeOf field
      let field_text := fieldTextOf field
      let value_str := pyStrip v
      if v = "RESUME_FILE" && field_type ≠ "file" &&
          !strContains field_text "resume" && !strContains field_text "cv" then
        { value := none, confidence := some 0,
          reason := some "RESUME_FILE only for file upload fields" }
      else if (strContains field_text "email" || strContains field_text "e-mail") &&
          v ≠ "RESUME_FILE" &&
          (pyLower (pyStrip v) = "yes" || pyLower (pyStrip v) = "no") then
        { value := none, confidence := some 0,
          reason := some "Email field must not receive Yes/No" }
      else if (strContains field_text "email" || strContains field_text "e-mail") &&
          v ≠ "RESUME_FILE" &&
          !looksLikeEmail value_str && decide (value_str.data.length > 3) then
        { value := none, confidence := some 0,
          reason := some "Email field received non-email value" }
      else
        let is_country_code_field := isCountryCodeFieldOf field
        let ccOut : Option Mapping :=
          if is_country_code_field && looksLikePhone value_str then
            let profile_country := (por (profileGet profile "country") none).getD ""
            let country_key := pyLower (pyStrip profile_country)
            match COUNTRY_OPTION_FALLBACK.lookup country_key with
            | some country_option =>
              some { value := some country_option, confidence := some 0.95,
                     reason := some ("Phone country code from profile.country: " ++
                       country_option) }
            | none => none
          else none
        match ccOut with
        | some m => m
        | none =>
          if (strContains field_text "phone" || strContains field_text "mobile" ||
              strContains field_text "cell" || strContains field_text "telephone") &&
              looksLikeLocation value_str then
            { value := none, confidence := some 0,
              reason := some "Phone field must not receive location" }
          else if (strContains field_text "phone" || strContains field_text "mobile" ||
              strContains field_text "cell" || strContains field_text "telephone") &&
              looksLikeName value_str && !looksLikePhone value_str then
            { value := none, confidence := some 0,
              reason := some "Phone field must not receive name" }
          else if (strContains field_text "postal" || strContains field_text "zip" ||
              strContains field_text "postcode") && looksLikeName value_str then
            { value := none, confidence := some 0,
              reason := some "Postal field must not receive name" }
          else if (strContains field_text "postal" || strContains field_text "zip" ||
              strContains field_text "postcode") && looksLikeLocation value_str then
            { value := none, confidence := some 0,
              reason := some "Postal field must not receive location" }
          else if isSchoolOrDegreeField field_label field_text && v = "RESUME_FILE" then
            { value := none, confidence := some 0,
              reason := some "School/Degree must not receive RESUME_FILE" }
          else if isSchoolOrDegreeField field_label field_text &&
              looksLikePhone value_str then
            { value := none, confidence := some 0,
              reason := some "School/Degree must not receive phone number" }
          else if isLinkedinField field_label field_text && isEducationLike value_str then
            match por (profileGet profile "linkedin") none with
            | some linkedin =>
              if strStarts (pyStrip linkedin) "http" ||
                  strStarts (pyStrip linkedin) "linkedin.com" ||
                  strStarts (pyStrip linkedin) "www." then
                { value := some linkedin, confidence := some 0.9,
                  reason := some "LinkedIn field received education; used profile.linkedin" }
              else
                { value := none, confidence := some 0,
                  reason := some "LinkedIn field must receive URL, not education text" }
            | none =>
              { value := none, confidence := some 0,
                reason := some "LinkedIn field must receive URL, not education text" }
          else if isYearOnlyField field_label field_text && isEducationLike v then
            match pyFindYear v with
            | some y =>
              { value := some y, confidence := some 0.85,
                reason := some "Extracted year from misplaced education text" }
            | none =>
              { value := none, confidence := some 0,
                reason := some "Year field received education text; no year found" }
          else if isYesNoEmployeeQuestion field_label field_text && isEducationLike v then
            { value := some "No", confidence := some 0.85,
              reason := some "Yes/no question received education text; defaulting to No" }
          else if v ≠ "RESUME_FILE" && isLongDigits (pyStrip v) &&
              (strContains field_text "company" || strContains field_text "employer" ||
               (strContains field_text "title" && strContains field_text "job")) then
            { value := none, confidence := some 0,
              reason := some "Phone number does not belong in company/title field" }
          else
            let expBranch : Option Mapping :=
              if strContains field_label "experience" &&
                  (strContains field_label "year" || strContains field_label "years") then
                if decide (v.data.length > 50) then
                  match calcYearsExperience nowY nowM profile with
                  | some years_val =>
                    some { value := some years_val, confidence := some 0.9,
                           reason := some "Extracted years from profile (field received experience text)" }
                  | none =>
                    match pyFirstDigitRun v with
                    | some d =>
                      some { value := some d,
                             confidence := some ((mapping.confidence).getD 0.9),
                             reason := some ("Extracted number from: " ++
                               ⟨v.data.take 50⟩ ++ "...") }
                    | none => none
                else
                  match pyFirstDigitRun v with
                  | some d =>
                    some { value := some d,
                           confidence := some ((mapping.confidence).getD 0.9),
                           reason := some ("Extracted number from: " ++ v) }
                  | none => none
              else none
            match expBranch with
            | some m => m
            | none =>
              if (field_type = "select" || field_type = "combobox") &&
                  fieldOptions field ≠ [] then
                cleanSelectBlock field mapping field_label field_text
              else mapping

/-! ## Python dicts as association lists (unique keys, insertion order) -/

/-- A Python dict: assignment updates the first matching key in place, else
appends; lookup finds the first match. -/
def dinsert {V : Type} (k : String) (v : V) : List (String × V) → List (String × V)
  | [] => [(k, v)]
  | (k2, v2) :: rest =>
    if k2 = k then (k, v) :: rest else (k2, v2) :: dinsert k v rest

def dremove {V : Type} (k : String) (d : List (String × V)) : List (String × V) :=
  d.filter (fun kv => kv.1 ≠ k)

/-! ## The result cache (`_MAP_CACHE`, `_cache_get`, `_cache_put`)

`time.time()` enters as a natural-number tick `now`; entries store their
insertion tick.  `ttl` is `settings.form_field_cache_ttl` and `maxEntries`
is `settings.form_field_cache_max_entries`. -/

/-- `_cache_get`: a hit returns the stored value unchanged (the entry's tick
is not refreshed); an expired entry is popped. -/
def cacheGet {V : Type} (ttl now : Nat) (cache : List (String × Nat × V))
    (key : String) : List (String × Nat × V) × Option V :=
  match List.lookup key cache with
  | none => (cache, none)
  | some (t, v) => if now - t > ttl then (dremove key cache, none) else (cache, some v)

/-- One step of Python `min` over the cache items keyed by stored tick:
keep the incumbent on ties. -/
def oldestStep {V : Type} (acc : Option (String × Nat)) (kv : String × Nat × V) :
    Option (String × Nat) :=
  match acc with
  | none => some (kv.1, kv.2.1)
  | some (k0, t0) => if kv.2.1 < t0 then some (kv.1, kv.2.1) else some (k0, t0)

/-- `min(_MAP_CACHE.items(), key=lambda item: item[1][0])[0]`: the key with
the smallest stored tick, the first one on ties. -/
def oldestKey {V : Type} (cache : List (String × Nat × V)) : Option String :=
  (cache.foldl oldestStep none).map (·.1)

/-- `_cache_put`: evict the oldest-inserted entry when at capacity, then
assign. -/
def cachePut {V : Type} (maxEntries now : Nat) (cache : List (String × Nat × V))
    (key : String) (v : V) : List (String × Nat × V) :=
  let c1 :=
    if cache.length ≥ maxEntries then
      match oldestKey cache with
      | some k0 => dremove k0 cache
      | none => cache
    else cache
  dinsert key (now, v) c1

/-! ## The learning stores (form_field_learning.py models)

`DateTime` columns are not modelled; the remaining columns keep the model's
defaults. -/

structure UARow where
  user_id : Nat
  field_fp : String
  label_norm : String := ""
  value : Option String := none
  source : String := "llm"
  confidence : ℚ := 0.8
  used_count : Nat := 1
deriving DecidableEq

structure SKRow where
  field_fp : String
  ats_platform : Option String := none
  label_norm : Option String := none
  profile_key : String
  confidence : ℚ := 0.8
  vote_count : Nat := 1
deriving DecidableEq

structure SPRow where
  field_fp : String
  ats_platform : String
  selector_type : String
  selector : String
  success_count : Nat := 0
  fail_count : Nat := 0
deriving DecidableEq

structure FSRow where
  domain : String
  url_pattern : String := ""
  ats_platform : String
  field_count : Nat
  field_fps : List String
  sample_count : Nat := 1
  confidence : ℚ := 0.5
deriving DecidableEq

structure SubRec where
  field_fp : String
  label : Option String
  value : String
  source : String
  was_edited : Bool
deriving DecidableEq

structure HistRow where
  user_id : Nat
  domain : String
  url : String
  ats_platform : String
  field_count : Nat
  filled_count : Nat
  submitted_fields : List SubRec
deriving DecidableEq

structure DB where
  userAnswers : List UARow := []
  sharedKeys : List SKRow := []
  selectorPerf : List SPRow := []
  formStructures : List FSRow := []
  history : List HistRow := []
deriving DecidableEq

/-- Replace the first element satisfying `p` (SQLAlchemy `.first()` row
update). -/
def updateFirst {α : Type} (p : α → Bool) (f : α → α) : List α → List α
  | [] => []
  | x :: rest => if p x then f x :: rest else x :: updateFirst p f rest

/-- Python string truncation `s[:n]`. -/
def strTake (s : String) (n : Nat) : String := ⟨s.data.take n⟩

/-- `PROFILE_KEY_TO_FIELD` from form_field_mapper.py. -/
def PROFILE_KEY_TO_FIELD : List (String × String) :=
  [("first_name", "firstName"), ("last_name", "lastName"), ("email", "email"),
   ("phone", "phone"), ("linkedin_url", "linkedin"),
   ("portfolio_url", "portfolio"), ("address", "location"), ("city", "city"),
   ("country", "country"), ("state", "state"), ("zip", "location"),
   ("years_experience", "experience"), ("current_title", "title"),
   ("current_company", "company"), ("salary_expectation", "expectedSalary"),
   ("cover_letter", "professionalSummary")]

/-- Is `profile.get(k)` truthy? -/
def profileTruthy (p : Profile) (k : String) : Bool :=
  match profileGet p k with
  | some v => v ≠ ""
  | none => false

/-! ## `map_form_fields_llm_for_misses` (form_field_mapper.py) -/

/-- One element of the generative reply's `fields` array, as parsed JSON. -/
structure LLMItem where
  field_fp : Option String := none
  value : Option String := none
  profile_key : Option String := none
  confidence : Option ℚ := none
deriving DecidableEq

/-- One entry of the function's result dict. -/
structure LLMResult where
  value : Option String := none
  confidence : ℚ := 0.8
  profile_key : Option String := none
  reason : String := ""
deriving DecidableEq

/-- The generative capability: `none` models a raised exception inside the
`try` (network error, invalid response object, `NameError` from cleanup);
`some items` is the parsed `payload["fields"]` list. -/
def LLMOracle : Type := Option (List LLMItem)

/-- The `fp_to_field` dict of `map_form_fields_llm_for_misses`. -/
def fpToField (fieldsWithFp : List (String × Field)) : List (String × Field) :=
  (fieldsWithFp.filter (fun p => p.1 ≠ "")).foldl
    (fun d p => dinsert p.1 p.2 d) []

/-- One result entry of `map_form_fields_llm_for_misses`: the item's value
run through `_clean_field_value` against its field. -/
def llmCleanItem (nowY nowM : Nat) (profile : Profile) (field : Field)
    (item : LLMItem) : LLMResult :=
  let confidence := (item.confidence).getD 0.8
  let cleaned := cleanFieldValue nowY nowM field
    { value := item.value, confidence := some confidence } profile
  { value := cleaned.value,
    confidence := (cleaned.confidence).getD 0.8,
    profile_key := item.profile_key,
    reason := (cleaned.reason).getD "" }

/-- One iteration of the reply loop: skip items without a known
fingerprint, clean and record the rest. -/
def llmFoldStep (nowY nowM : Nat) (profile : Profile)
    (fp_to_field : List (String × Field)) (result : List (String × LLMResult))
    (item : LLMItem) : List (String × LLMResult) :=
  match item.field_fp with
  | none => result
  | some fp =>
    if fp = "" then result
    else
      match List.lookup fp fp_to_field with
      | none => result
      | some field => dinsert fp (llmCleanItem nowY nowM profile field item) result

/-- `map_form_fields_llm_for_misses`: returns `{}` when there is nothing to
map, when `settings.openai_api_key` is empty, or when the call errors;
otherwise filters the reply to known fingerprints and cleans each value. -/
def mapFormFieldsLlmForMisses (nowY nowM : Nat) (apiKey : Bool)
    (oracle : LLMOracle) (fieldsWithFp : List (String × Field))
    (profile : Profile) : List (String × LLMResult) :=
  if fieldsWithFp = [] || !apiKey then []
  else if !(fieldsWithFp.any (fun p => p.1 ≠ "")) then []
  else
    match oracle with
    | none => []
    | some raw_fields =>
      raw_fields.foldl (llmFoldStep nowY nowM profile (fpToField fieldsWithFp)) []

/-! ## `_persist_llm_results` (routes.py, lines 394–462) -/

/-- One iteration of the `seen_fps` loop: keep the first occurrence of each
fingerprint whose LLM value is present and non-blank. -/
def seenStep (llm_results : List (String × LLMResult))
    (acc : List (String × Field × LLMResult)) (p : String × Field) :
    List (String × Field × LLMResult) :=
  if p.1 = "" || (acc.any (fun q => q.1 = p.1)) then acc
  else
    match List.lookup p.1 llm_results with
    | none => acc
    | some res =>
      match res.value with
      | none => acc
      | some v => if pyStrip v = "" then acc else acc ++ [(p.1, p.2, res)]

/-- The `seen_fps` dict: first occurrence of each fingerprint whose LLM
value is present and non-blank. -/
def persistSeen (fields : List (String × Field))
    (llm_results : List (String × LLMResult)) :
    List (String × Field × LLMResult) :=
  fields.foldl (seenStep llm_results) []

/-- The per-user upsert of the persist loop: update the existing
`(user, fp)` row in place — source forced to `"llm"` — or append a fresh
one. -/
def persistUAUpsert (user_id : Nat) (fp : String) (v : String)
    (confidence : ℚ) (label_norm : String) (ua : List UARow) : List UARow :=
  if ua.any (fun r => r.user_id = user_id && r.field_fp = fp) then
    updateFirst (fun r => r.user_id = user_id && r.field_fp = fp)
      (fun r =>
        { r with
          value := some v
          source := "llm"
          confidence := confidence
          label_norm := label_norm
          used_count := r.used_count + 1 })
      ua
  else
    ua ++
      [{ user_id := user_id
         field_fp := fp
         label_norm := label_norm
         value := some v
         source := "llm"
         confidence := confidence
         used_count := 1 }]

/-- The shared profile-key upsert of the persist loop: strengthen the vote
count (`confidence or 0.5` on a falsy stored confidence) or create the
row. -/
def persistSharedUpsert (fp pk : String) (confidence : ℚ)
    (label_norm ats_platform : String) (sk : List SKRow) : List SKRow :=
  if sk.any (fun r => r.field_fp = fp) then
    updateFirst (fun r => r.field_fp = fp)
      (fun r =>
        let oldc := if r.confidence = 0 then 0.5 else r.confidence
        { r with
          vote_count := r.vote_count + 1
          confidence := max oldc confidence })
      sk
  else
    sk ++
      [{ field_fp := fp
         ats_platform := some ats_platform
         label_norm := some label_norm
         profile_key := pk
         confidence := confidence
         vote_count := 1 }]

/-- One iteration of the persist loop: upsert the per-user answer (source
forced to `"llm"`), then maybe upsert the shared profile-key row. -/
def persistStep (user_id : Nat) (profile : Profile) (ats_platform : String)
    (acc : DB × List String) (item : String × Field × LLMResult) :
    DB × List String :=
  match item.2.2.value with
  | none => acc
  | some v =>
    let label_norm := strTake (normalize_label ((item.2.1.label).getD "")) 255
    let ua1 := persistUAUpsert user_id item.1 v item.2.2.confidence label_norm acc.1.userAnswers
    let db1 := { acc.1 with userAnswers := ua1 }
    match item.2.2.profile_key with
    | none => (db1, acc.2)
    | some pk =>
      if pk ≠ "" && pk ≠ "null" && !acc.2.contains item.1 then
        let pf_key := (PROFILE_KEY_TO_FIELD.lookup pk).getD pk
        if profileHasKey profile pf_key && profileTruthy profile pf_key then
          let sk1 := persistSharedUpsert item.1 pk item.2.2.confidence label_norm ats_platform db1.sharedKeys
          ({ db1 with sharedKeys := sk1 }, acc.2 ++ [item.1])
        else (db1, acc.2)
      else (db1, acc.2)

/-- `_persist_llm_results`. -/
def persistLlmResults (db : DB) (user_id : Nat)
    (fields : List (String × Field)) (llm_results : List (String × LLMResult))
    (profile : Profile) (ats_platform : String) : DB :=
  ((persistSeen fields llm_results).foldl
    (persistStep user_id profile ats_platform) (db, [])).1

/-! ## `map_fields` — the `/form-fields/map` route (routes.py, lines 478–566) -/

structure MapEntry where
  value : Option String
  confidence : ℚ
  reason : String
  type : String
deriving DecidableEq

structure MapOut where
  db : DB
  /-- The sequence of dict assignments building the response `mappings`
  (for each field, its fingerprint key then its index key, sharing one
  entry). -/
  writes : List (String × MapEntry)
  /-- The response dict those assignments produce. -/
  mappings : List (String × MapEntry)
  unfilled : List String
deriving DecidableEq

/-- Layer 2: the per-user answer dict for the requested fingerprints (rows
with a non-blank value). -/
def userAnswerMap (db : DB) (uid : Nat) (fps : List String) :
    List (String × String) :=
  (db.userAnswers.filter
      (fun r => r.user_id = uid && fps.contains r.field_fp)).foldl
    (fun d r =>
      if pyStrip ((r.value).getD "") ≠ "" then
        dinsert r.field_fp ((r.value).getD "") d
      else d)
    []

/-- One iteration of the shared-key loop: resolve the mapped profile key
against the current profile and record the hit. -/
def sharedStep (profile : Profile) (d : List (String × String)) (row : SKRow) :
    List (String × String) :=
  let pk := (PROFILE_KEY_TO_FIELD.lookup row.profile_key).getD row.profile_key
  if profileHasKey profile pk && profileTruthy profile pk then
    dinsert row.field_fp ((profileGet profile pk).getD "") d
  else d

/-- Layers 2+3: add shared profile-key hits for the fingerprints missed by
the per-user layer, resolving each against the current profile. -/
def storeResolve (db : DB) (uid : Nat) (profile : Profile)
    (fps : List String) : List (String × String) :=
  let user_map := userAnswerMap db uid fps
  let miss_fps := fps.filter (fun fp => (List.lookup fp user_map).isNone)
  (db.sharedKeys.filter (fun r => miss_fps.contains r.field_fp)).foldl
    (sharedStep profile) user_map

/-- `key_idx` in the response loop:
`str(idx) if (idx is not None and idx != "") else str(field.get("id") or "")`. -/
def fieldIdxKey (f : Field) : String :=
  match f.index with
  | some i => if i ≠ "" then i else ((por f.id none).getD "")
  | none => ((por f.id none).getD "")

/-- `inferred`: `(f_tag or f_type or "input").lower()`. -/
def fieldInferredType (f : Field) : String :=
  let f_tag := pyLower ((por f.tag none).getD "")
  let f_type := pyLower ((por f.type none).getD "")
  pyLower (if f_tag ≠ "" then f_tag else if f_type ≠ "" then f_type else "input")

/-- The entry built for one field from the final `user_map`. -/
def entryFor (user_map : List (String × String)) (fp : String) (f : Field) :
    MapEntry :=
  { value := List.lookup fp user_map, confidence := 0.9, reason := "",
    type := fieldInferredType f }

/-- The response-building loop: one entry per field, written under the
fingerprint key and the index key. -/
def buildWrites (user_map : List (String × String))
    (fields_with_fp : List (String × Field)) : List (String × MapEntry) :=
  fields_with_fp.flatMap (fun p =>
    [(p.1, entryFor user_map p.1 p.2), (fieldIdxKey p.2, entryFor user_map p.1 p.2)])

/-- `_compute_unfilled_keys`. -/
def computeUnfilledKeys (fields_with_fp : List (String × Field))
    (user_map : List (String × String)) : List String :=
  (fields_with_fp.filter
      (fun p => p.1 ≠ "" && (List.lookup p.1 user_map).isNone)).map
    (fun p => normalize_label ((p.2.label).getD ""))

/-- The fingerprinting loop: each field paired with its `_fp`. -/
def fieldsWithFp (payloadFields : List Field) : List (String × Field) :=
  payloadFields.map (fun f => (compute_field_fingerprint f, f))

/-- `ats_platform = (payload.fields[0].get("platform") ...) or "unknown"`. -/
def mapFieldsAts (payloadFields : List Field) : String :=
  match payloadFields.head? with
  | some f => (por f.platform (some "unknown")).getD "unknown"
  | none => "unknown"

/-- Layer 2+3 result for a request. -/
def requestUserMap (db : DB) (uid : Nat) (profile : Profile)
    (payloadFields : List Field) : List (String × String) :=
  storeResolve db uid profile ((fieldsWithFp payloadFields).map (·.1))

/-- The fields that reach the generative step: those whose fingerprint the
store layers left unresolved. -/
def llmFieldsOf (db : DB) (uid : Nat) (profile : Profile)
    (payloadFields : List Field) : List (String × Field) :=
  (fieldsWithFp payloadFields).filter
    (fun p => (List.lookup p.1 (requestUserMap db uid profile payloadFields)).isNone)

/-- The generative results of a request (an empty dict when no field reached
the generative step). -/
def llmResultsOf (nowY nowM : Nat) (db : DB) (uid : Nat) (profile : Profile)
    (apiKey : Bool) (oracle : LLMOracle) (payloadFields : List Field) :
    List (String × LLMResult) :=
  let llm_fields := llmFieldsOf db uid profile payloadFields
  if llm_fields ≠ [] then
    mapFormFieldsLlmForMisses nowY nowM apiKey oracle llm_fields profile
  else []

/-- One iteration of the loop copying non-blank generative values into the
response map. -/
def llmValueStep (d : List (String × String)) (kv : String × LLMResult) :
    List (String × String) :=
  match kv.2.value with
  | some v => if pyStrip v ≠ "" then dinsert kv.1 v d else d
  | none => d

/-- The final `user_map` after folding in the generative values. -/
def finalUserMap (nowY nowM : Nat) (db : DB) (uid : Nat) (profile : Profile)
    (apiKey : Bool) (oracle : LLMOracle) (payloadFields : List Field) :
    List (String × String) :=
  (llmResultsOf nowY nowM db uid profile apiKey oracle payloadFields).foldl
    llmValueStep (requestUserMap db uid profile payloadFields)

/-- The `/form-fields/map` route body after validation: fingerprint each
field, resolve through the per-user store, the shared store and the
generative fallback, persist generative results, and build the response.
`none` models the 400 rejection of an empty field list. -/
def mapFields (nowY nowM : Nat) (db : DB) (uid : Nat) (profile : Profile)
    (apiKey : Bool) (oracle : LLMOracle) (payloadFields : List Field) :
    Option MapOut :=
  if payloadFields = [] then none
  else
    let llm_fields := llmFieldsOf db uid profile payloadFields
    let llm_results := llmResultsOf nowY nowM db uid profile apiKey oracle payloadFields
    let user_map2 := finalUserMap nowY nowM db uid profile apiKey oracle payloadFields
    let db2 :=
      if llm_fields ≠ [] then
        persistLlmResults db uid llm_fields llm_results profile
          (mapFieldsAts payloadFields)
      else db
    let writes := buildWrites user_map2 (fieldsWithFp payloadFields)
    some { db := db2, writes := writes,
           mappings := writes.foldl (fun d kv => dinsert kv.1 kv.2 d) [],
           unfilled := computeUnfilledKeys (fieldsWithFp payloadFields) user_map2 }

/-! ## `submit_feedback` — the `/form-fields/submit-feedback` route
(routes.py, lines 606–687) and `_update_form_structure` -/

structure FeedbackField where
  fingerprint : String := ""
  label : Option String := none
  type : Option String := none
  options : Option (List String) := none
  ats_platform : Option String := none
  selector_used : Option String := none
  selector_type : Option String := none
  autofill_value : Option String := none
  submitted_value : Option String := none
  was_edited : Bool := false
deriving DecidableEq

structure FeedbackIn where
  url : String := ""
  domain : String := ""
  ats : Option String := none
  fields : List FeedbackField := []
deriving DecidableEq

/-- `value = field.submitted_value if field.submitted_value is not None else
field.autofill_value`. -/
def feedbackValue (fd : FeedbackField) : Option String :=
  match fd.submitted_value with
  | some v => some v
  | none => fd.autofill_value

/-- The row predicate of the per-user answer query
(`UserFieldAnswer.user_id == user.id, field_fp == fp`). -/
def uaKey (uid : Nat) (fp : String) (r : UARow) : Bool :=
  r.user_id = uid && r.field_fp = fp

/-- `source = "user_edit" if field.was_edited else "form_submit"`. -/
def feedbackSrc (fd : FeedbackField) : String :=
  if fd.was_edited then "user_edit" else "form_submit"

/-- `confidence = 0.95 if field.was_edited else 1.0`. -/
def feedbackConf (fd : FeedbackField) : ℚ :=
  if fd.was_edited then 0.95 else 1.0

/-- `ats = field.ats_platform or payload.ats or "unknown"`. -/
def feedbackAts (ats_payload : Option String) (fd : FeedbackField) : String :=
  (por fd.ats_platform (por ats_payload (some "unknown"))).getD "unknown"

/-- `sel_type = field.selector_type or "id"`. -/
def feedbackSelType (fd : FeedbackField) : String :=
  (por fd.selector_type (some "id")).getD "id"

/-- The row predicate of the selector-performance query. -/
def feedbackSelKey (ats_payload : Option String) (fd : FeedbackField)
    (sel : String) (r : SPRow) : Bool :=
  r.field_fp = fd.fingerprint && r.ats_platform = feedbackAts ats_payload fd &&
    r.selector_type = feedbackSelType fd && r.selector = sel

/-- The per-user upsert of the feedback loop: update the `(user, fp)` row in
place or append a fresh one. -/
def feedbackUAUpsert (uid : Nat) (fp : String) (value src : String) (conf : ℚ)
    (label_norm : String) (ua : List UARow) : List UARow :=
  if ua.any (uaKey uid fp) then
    updateFirst (uaKey uid fp)
      (fun r =>
        { r with
          value := some value
          source := src
          confidence := conf
          used_count := r.used_count + 1 })
      ua
  else
    ua ++
      [{ user_id := uid, field_fp := fp, label_norm := label_norm,
         value := some value, source := src, confidence := conf,
         used_count := 1 }]

/-- The selector-performance upsert of the feedback loop: bump
`success_count` on the matching row or create it. -/
def feedbackSPUpsert (key : SPRow → Bool) (newRow : SPRow)
    (sp : List SPRow) : List SPRow :=
  if sp.any key then
    updateFirst key (fun r => { r with success_count := r.success_count + 1 }) sp
  else sp ++ [newRow]

/-- One iteration of the feedback loop: upsert the per-user answer and the
selector-performance row, and record the submitted field. -/
def feedbackStep (uid : Nat) (ats_payload : Option String)
    (acc : DB × List SubRec) (fd : FeedbackField) : DB × List SubRec :=
  match feedbackValue fd with
  | none => acc
  | some value =>
    if fd.fingerprint = "" then acc
    else
      let src := feedbackSrc fd
      let ua1 := feedbackUAUpsert uid fd.fingerprint value src (feedbackConf fd)
        (strTake (normalize_label ((fd.label).getD "")) 255) acc.1.userAnswers
      let db1 := { acc.1 with userAnswers := ua1 }
      let db2 :=
        match por fd.selector_used none with
        | some sel =>
          if optTruthy (por fd.ats_platform ats_payload) then
            let newRow : SPRow :=
              { field_fp := fd.fingerprint
                ats_platform := feedbackAts ats_payload fd
                selector_type := feedbackSelType fd
                selector := sel
                success_count := 1
                fail_count := 0 }
            let sp1 := feedbackSPUpsert (feedbackSelKey ats_payload fd sel)
              newRow db1.selectorPerf
            { db1 with selectorPerf := sp1 }
          else db1
        | none => db1
      (db2, acc.2 ++ [{ field_fp := fd.fingerprint, label := fd.label,
                        value := value, source := src,
                        was_edited := fd.was_edited }])

/-- `_update_form_structure`: upsert the per-domain structure row.  The
source unions fingerprints through a Python `set` whose iteration order is
unspecified; the union is modelled as a deduplicated concatenation. -/
def updateFormStructure (db : DB) (domain url : String) (ats : Option String)
    (fields : List FeedbackField) : DB :=
  let fps := (fields.filter (fun f => f.fingerprint ≠ "")).map (·.fingerprint)
  if fps = [] then db
  else
    let ats' := (por ats (some "unknown")).getD "unknown"
    let url_pattern := if url = "" then "" else strTake url 200
    if db.formStructures.any (fun r => r.domain = domain) then
      let fs' := updateFirst (fun r => r.domain = domain)
        (fun r =>
          let newFps := (r.field_fps ++ fps).dedup
          let newSample := r.sample_count + 1
          { r with
            field_fps := newFps
            field_count := newFps.length
            sample_count := newSample
            confidence := min ((newSample : ℚ) / 10) 1
            ats_platform := ats' })
        db.formStructures
      { db with formStructures := fs' }
    else
      let newRow : FSRow :=
        { domain := domain
          url_pattern := url_pattern
          ats_platform := ats'
          field_count := fps.length
          field_fps := fps
          sample_count := 1
          confidence := 0.1 }
      { db with formStructures := db.formStructures ++ [newRow] }

/-- `submit_feedback`: learn per-user answers and selector performance from
one submission, append the history record, and update the form structure;
returns the new store state and the `learned` count. -/
def submitFeedback (db : DB) (uid : Nat) (payload : FeedbackIn) : DB × Nat :=
  let fd := payload.fields.foldl (feedbackStep uid payload.ats) (db, [])
  let db1 := fd.1
  let recs := fd.2
  let hist : HistRow :=
    { user_id := uid, domain := payload.domain, url := payload.url,
      ats_platform := (por payload.ats (some "unknown")).getD "unknown",
      field_count := payload.fields.length,
      filled_count := (payload.fields.filter
        (fun f => ((por f.submitted_value none)).isSome)).length,
      submitted_fields := recs }
  let db2 := { db1 with history := db1.history ++ [hist] }
  (updateFormStructure db2 payload.domain payload.url payload.ats
    payload.fields, recs.length)

/-- The stored per-user rows for one `(user, fingerprint)` pair. -/
def uaFor (uid : Nat) (fp : String) (db : DB) : List UARow :=
  db.userAnswers.filter (uaKey uid fp)

/-- The stored selector-performance rows matching one selector key. -/
def spFor (key : SPRow → Bool) (db : DB) : List SPRow :=
  db.selectorPerf.filter key

/-! ## Concrete scenario data used by witnesses and counterexamples -/

def c3Field : Field :=
  { label := some "Email Address", type := some "email", options := some [],
    index := some "0" }

def c3Fp : String := compute_field_fingerprint c3Field

def c3Row : UARow :=
  { user_id := 1, field_fp := c3Fp, value := some "stored@x.com",
    source := "user_edit", confidence := 0.95, used_count := 3 }

def c3Shared : SKRow :=
  { field_fp := c3Fp, profile_key := "email", confidence := 0.9,
    vote_count := 2 }

def c3Db : DB := { userAnswers := [c3Row], sharedKeys := [c3Shared] }

def c3Profile : Profile := { flat := [("email", "prof@x.com")] }

def c3Oracle : LLMOracle :=
  some [{ field_fp := some c3Fp, value := some "llm@x.com",
          profile_key := some "email", confidence := some 0.8 }]

def c4Row : UARow :=
  { user_id := 1, field_fp := "fpX", value := some "user value",
    source := "user_edit", confidence := 0.95, used_count := 1 }

def c4Db : DB := { userAnswers := [c4Row] }

def c4Result : LLMResult :=
  { value := some "llm value", confidence := 0.8, profile_key := none,
    reason := "" }

def c2Field : Field :=
  { label := some "Country", type := some "select",
    options := some ["United States"] }

def c2Map : Mapping := { value := some "india" }

def c2SelField : Field :=
  { label := some "Salutation", type := some "select",
    options := some ["Mr", "Ms", "Mrs", "Dr"] }

def c2SelMap : Mapping := { value := some "Dr" }

def c7Fd : FeedbackField :=
  { fingerprint := "fp1", label := some "Email",
    submitted_value := some "user@x.com", was_edited := false,
    selector_used := some "#email", selector_type := some "css",
    ats_platform := some "greenhouse" }

def c7Payload : FeedbackIn :=
  { url := "https://jobs.example/apply", domain := "jobs.example",
    ats := some "greenhouse", fields := [c7Fd] }

/-- A cache at the default capacity 64: key `"A"` inserted at tick 0, then
keys `"1"` … `"63"` at ticks 1 … 63. -/
def c8Cache : List (String × Nat × Nat) :=
  (List.range 63).foldl
    (fun c i => cachePut 64 (i + 1) c (toString (i + 1)) (i + 1))
    (cachePut 64 0 [] "A" 0)

/-! # Theorems -/

/-! ## C1 — cross-stack fingerprint parity -/

/-- C1: every field of the fixed parity table (`PARITY_CASES` in
test_fingerprint_parity.py) hashes under `compute_field_fingerprint` to its
recorded 32-character hex digest, the digests generated once by the
JavaScript reference implementation — in particular the `"Email Address"`
field hashes to `"63f7d866455be7051296c8481faf4f52"`. -/
theorem C1_fingerprint_parity :
    compute_field_fingerprint
      { label := some "Email Address", type := some "email", options := some [] } =
      "63f7d866455be7051296c8481faf4f52" ∧
    compute_field_fingerprint
      { label := some "First Name", type := some "text", options := some [] } =
      "45f4978ac1745bb1bce038713de057bc" ∧
    compute_field_fingerprint
      { label := some "Phone Number", type := some "tel", options := some [] } =
      "1145787cf3ecf62a67931f1decd07d5e" ∧
    compute_field_fingerprint
      { label := some "Current Location", type := some "select",
        options := some ["United States", "Canada", "United Kingdom"] } =
      "daf5f70ca031659f3e64d79137d37d54" ∧
    compute_field_fingerprint
      { label := some "", type := some "text", options := some [] } =
      "52b667b6a7a77b51c85dec1555777c81" ∧
    compute_field_fingerprint
      { label := some "Are you authorized to work?", type := some "radio",
        options := some ["Yes", "No"] } =
      "4fa890e6879685bf12ac16f22e019fd0" := by
  refine ⟨?_, ?_, ?_, ?_, ?_, ?_⟩ <;> decide

/-! ## C6 — fingerprint invariance under option order and label
normalization -/

theorem firstTruthy_cons_truthy {s : String} (h : s ≠ "")
    (rest : List (Option String)) : firstTruthy (some s :: rest) = s := by
  simp [firstTruthy, h]

theorem firstTruthy_cons_falsy {o : Option String}
    (h : o = none ∨ o = some "") (rest : List (Option String)) :
    firstTruthy (o :: rest) = firstTruthy rest := by
  rcases h with h | h <;> subst h <;> simp [firstTruthy]

theorem labelTruthy_iff (f : Field) :
    labelTruthy f = true ↔ ∃ s, f.label = some s ∧ s ≠ "" := by
  unfold labelTruthy
  rcases h : f.label with _ | s
  · simp
  · simp

theorem labelFalsy_iff (f : Field) :
    labelTruthy f = false ↔ f.label = none ∨ f.label = some "" := by
  unfold labelTruthy
  rcases h : f.label with _ | s
  · simp
  · simp

/-- C6 counterexample: two fields whose labels differ only in whitespace
(`""` against `" "`), every other part equal, get different fingerprints —
the whitespace-only label is truthy and suppresses the placeholder
fallback. -/
theorem C6_counterexample :
    (Field.placeholder
        { label := some "", placeholder := some "Email", type := some "text",
          options := some [] } =
      Field.placeholder
        { label := some " ", placeholder := some "Email", type := some "text",
          options := some [] } ∧
      normalize_label "" = normalize_label " ") ∧
    compute_field_fingerprint
        { label := some "", placeholder := some "Email", type := some "text",
          options := some [] } ≠
      compute_field_fingerprint
        { label := some " ", placeholder := some "Email", type := some "text",
          options := some [] } := by
  refine ⟨⟨rfl, rfl⟩, ?_⟩
  decide

/-- C6 (amended): two fields that agree on placeholder, name, and type,
whose options lists are permutations of one another, whose labels have the
same normalization, and whose labels are both truthy or both falsy, get the
same fingerprint. -/
theorem C6_fingerprint_invariance (f1 f2 : Field)
    (hpl : f1.placeholder = f2.placeholder) (hnm : f1.name = f2.name)
    (hty : f1.type = f2.type)
    (hopts : (fieldOptions f1).Perm (fieldOptions f2))
    (hlab : normalize_label ((f1.label).getD "") =
      normalize_label ((f2.label).getD ""))
    (htru : labelTruthy f1 = labelTruthy f2) :
    compute_field_fingerprint f1 = compute_field_fingerprint f2 := by
  have hl : normalize_label (firstTruthy [f1.label, f1.placeholder, f1.name]) =
      normalize_label (firstTruthy [f2.label, f2.placeholder, f2.name]) := by
    by_cases h1 : labelTruthy f1 = true
    · have h2 : labelTruthy f2 = true := htru ▸ h1
      obtain ⟨s1, hs1, hne1⟩ := (labelTruthy_iff f1).mp h1
      obtain ⟨s2, hs2, hne2⟩ := (labelTruthy_iff f2).mp h2
      rw [hs1, hs2, firstTruthy_cons_truthy hne1, firstTruthy_cons_truthy hne2]
      rw [hs1, hs2] at hlab
      simpa using hlab
    · have h1f : labelTruthy f1 = false := Bool.eq_false_iff.mpr h1
      have h2f : labelTruthy f2 = false := htru ▸ h1f
      have e1 := (labelFalsy_iff f1).mp h1f
      have e2 := (labelFalsy_iff f2).mp h2f
      rcases e1 with e1 | e1 <;> rcases e2 with e2 | e2 <;>
        rw [e1, e2] <;> simp [firstTruthy, hpl, hnm]
  have ht : pyStrip (pyLower ((f1.type).getD "")) =
      pyStrip (pyLower ((f2.type).getD "")) := by rw [hty]
  have ho : pySorted ((fieldOptions f1).map normalize_label) =
      pySorted ((fieldOptions f2).map normalize_label) :=
    pySorted_perm_eq (hopts.map normalize_label)
  unfold compute_field_fingerprint
  rw [hl, ht, ho]

/-- C6 witness: the spec's own example — permuting the options of the
`"Country"` select leaves the fingerprint unchanged. -/
theorem C6_fingerprint_invariance_witness :
    compute_field_fingerprint
      { label := some "Country", type := some "select",
        options := some ["USA", "Canada"] } =
    compute_field_fingerprint
      { label := some "Country", type := some "select",
        options := some ["Canada", "USA"] } :=
  C6_fingerprint_invariance _ _ rfl rfl rfl (by decide) rfl rfl

/-! ## C9 — the heuristic normalizer's first-match contract -/

theorem normalizeGo_eq_none_iff (signals : List String)
    (table : List (String × List RPat)) :
    normalizeGo signals table = none ↔
      ∀ kp ∈ table, keyMatches kp.2 signals = false := by
  induction table with
  | nil => simp [normalizeGo]
  | cons kp rest ih =>
    obtain ⟨key, ps⟩ := kp
    by_cases h : keyMatches ps signals = true
    · simp [normalizeGo, h]
    · have hf : keyMatches ps signals = false := Bool.eq_false_iff.mpr h
      simp only [normalizeGo, hf]
      rw [if_neg Bool.false_ne_true, ih]
      constructor
      · intro hall kq hkq
        rcases List.mem_cons.mp hkq with rfl | hkq
        · exact hf
        · exact hall kq hkq
      · intro hall kq hkq
        exact hall kq (List.mem_cons_of_mem _ hkq)

theorem normalizeGo_eq_some (signals : List String)
    (table : List (String × List RPat)) (k : String)
    (h : normalizeGo signals table = some k) :
    ∃ pre ps post, table = pre ++ (k, ps) :: post ∧
      keyMatches ps signals = true ∧
      ∀ kp ∈ pre, keyMatches kp.2 signals = false := by
  induction table with
  | nil => simp [normalizeGo] at h
  | cons kp rest ih =>
    obtain ⟨key, ps⟩ := kp
    by_cases hm : keyMatches ps signals = true
    · refine ⟨[], ps, rest, ?_, hm, by simp⟩
      simp only [normalizeGo, hm, if_true] at h
      injection h with h
      subst h
      rfl
    · have hf : keyMatches ps signals = false := Bool.eq_false_iff.mpr hm
      simp only [normalizeGo, hf] at h
      rw [if_neg Bool.false_ne_true] at h
      obtain ⟨pre, ps2, post, htab, hmt, hpre⟩ := ih h
      refine ⟨(key, ps) :: pre, ps2, post, by rw [htab]; rfl, hmt, ?_⟩
      intro kq hkq
      rcases List.mem_cons.mp hkq with rfl | hkq
      · exact hf
      · exact hpre kq hkq

/-- No pattern of the registered table matches the empty signal, so the
code's `if text and re.search(...)` guard agrees with plain matching. -/
theorem patterns_no_empty_match :
    ∀ kp ∈ PATTERNS, ∀ p ∈ kp.2, reSearchCI [p] "" = false := by
  decide

theorem keyMatches_iff (ps : List RPat) (signals : List String)
    (hemp : ∀ p ∈ ps, reSearchCI [p] "" = false) :
    keyMatches ps signals = true ↔
      ∃ p ∈ ps, ∃ t ∈ signals, reSearchCI [p] t = true := by
  unfold keyMatches
  rw [List.any_eq_true]
  constructor
  · rintro ⟨p, hp, hs⟩
    rw [List.any_eq_true] at hs
    obtain ⟨t, ht, hcond⟩ := hs
    rw [Bool.and_eq_true] at hcond
    exact ⟨p, hp, t, ht, hcond.2⟩
  · rintro ⟨p, hp, t, ht, hs⟩
    refine ⟨p, hp, ?_⟩
    rw [List.any_eq_true]
    refine ⟨t, ht, ?_⟩
    rw [Bool.and_eq_true]
    refine ⟨?_, hs⟩
    simp only [ne_eq, decide_eq_true_eq]
    intro hteq
    subst hteq
    rw [hemp p hp] at hs
    exact Bool.false_ne_true hs

/-- C9: `FieldNormalizationService.normalize` returns `none` exactly when no
pattern of any canonical key matches any of label/name/id
(case-insensitively), and otherwise returns the first key in the table's
registration order owning a matching pattern (no earlier key matches). -/
theorem C9_normalize_first_match (label name field_id : String) :
    (fieldNormalize label name field_id = none ↔
      ∀ kp ∈ PATTERNS, ¬ ∃ p ∈ kp.2, ∃ t ∈ [label, name, field_id],
        reSearchCI [p] t = true) ∧
    (∀ k, fieldNormalize label name field_id = some k →
      ∃ pre ps post, PATTERNS = pre ++ (k, ps) :: post ∧
        (∃ p ∈ ps, ∃ t ∈ [label, name, field_id], reSearchCI [p] t = true) ∧
        ∀ kp ∈ pre, ¬ ∃ p ∈ kp.2, ∃ t ∈ [label, name, field_id],
          reSearchCI [p] t = true) := by
  constructor
  · rw [fieldNormalize, normalizeGo_eq_none_iff]
    constructor
    · intro hall kp hkp hex
      have := (keyMatches_iff kp.2 [label, name, field_id]
        (fun p hp => patterns_no_empty_match kp hkp p hp)).mpr hex
      rw [hall kp hkp] at this
      exact Bool.false_ne_true this
    · intro hall kp hkp
      rw [Bool.eq_false_iff]
      intro hm
      exact hall kp hkp ((keyMatches_iff kp.2 [label, name, field_id]
        (fun p hp => patterns_no_empty_match kp hkp p hp)).mp hm)
  · intro k hk
    obtain ⟨pre, ps, post, htab, hm, hpre⟩ :=
      normalizeGo_eq_some [label, name, field_id] PATTERNS k hk
    have hkps : (k, ps) ∈ PATTERNS := by
      rw [htab]
      exact List.mem_append_right _ (List.mem_cons_self _ _)
    refine ⟨pre, ps, post, htab, (keyMatches_iff ps _
      (fun p hp => patterns_no_empty_match (k, ps) hkps p hp)).mp hm, ?_⟩
    intro kp hkp hex
    have hkpt : kp ∈ PATTERNS := by
      rw [htab]
      exact List.mem_append_left _ hkp
    have := (keyMatches_iff kp.2 [label, name, field_id]
      (fun p hp => patterns_no_empty_match kp hkpt p hp)).mpr hex
    rw [hpre kp hkp] at this
    exact Bool.false_ne_true this

/-- C9 witness: a triple matching nothing is classified `none`, via the
`none` direction of the contract at a concrete input. -/
theorem C9_normalize_first_match_witness :
    fieldNormalize "favourite colour" "colour" "clr-7" = none :=
  (C9_normalize_first_match "favourite colour" "colour" "clr-7").1.mpr
    (by decide)

/-! ## Inversion of `mapFields` and membership in the response -/

theorem mapFields_writes {nowY nowM : Nat} {db : DB} {uid : Nat}
    {profile : Profile} {apiKey : Bool} {oracle : LLMOracle}
    {fields : List Field} {out : MapOut}
    (h : mapFields nowY nowM db uid profile apiKey oracle fields = some out) :
    out.writes = buildWrites
      (finalUserMap nowY nowM db uid profile apiKey oracle fields)
      (fieldsWithFp fields) := by
  by_cases hne : fields = []
  · subst hne; simp [mapFields] at h
  · simp only [mapFields, if_neg hne, Option.some_inj] at h
    rw [← h]

theorem mapFields_db {nowY nowM : Nat} {db : DB} {uid : Nat}
    {profile : Profile} {apiKey : Bool} {oracle : LLMOracle}
    {fields : List Field} {out : MapOut}
    (h : mapFields nowY nowM db uid profile apiKey oracle fields = some out) :
    out.db = (if llmFieldsOf db uid profile fields ≠ [] then
      persistLlmResults db uid (llmFieldsOf db uid profile fields)
        (llmResultsOf nowY nowM db uid profile apiKey oracle fields) profile
        (mapFieldsAts fields)
    else db) := by
  by_cases hne : fields = []
  · subst hne; simp [mapFields] at h
  · simp only [mapFields, if_neg hne, Option.some_inj] at h
    rw [← h]

theorem buildWrites_mem {um : List (String × String)}
    {l : List (String × Field)} {p : String × Field} (hp : p ∈ l) :
    (p.1, entryFor um p.1 p.2) ∈ buildWrites um l ∧
      (fieldIdxKey p.2, entryFor um p.1 p.2) ∈ buildWrites um l := by
  constructor <;>
    exact List.mem_flatMap.mpr ⟨p, hp, by simp⟩

theorem buildWrites_conf {um : List (String × String)}
    {l : List (String × Field)} {kv : String × MapEntry}
    (h : kv ∈ buildWrites um l) : kv.2.confidence = 0.9 := by
  obtain ⟨p, _, hkv⟩ := List.mem_flatMap.mp h
  rcases List.mem_cons.mp hkv with h1 | hkv2
  · rw [h1]; rfl
  · rcases List.mem_cons.mp hkv2 with h1 | h1
    · rw [h1]; rfl
    · exact absurd h1 (List.not_mem_nil _)

theorem mapFields_isSome (nowY nowM : Nat) (db : DB) (uid : Nat)
    (profile : Profile) (apiKey : Bool) (oracle : LLMOracle)
    (fields : List Field) (hne : fields ≠ []) :
    ∃ out, mapFields nowY nowM db uid profile apiKey oracle fields = some out := by
  unfold mapFields
  rw [if_neg hne]
  exact ⟨_, rfl⟩

/-! ## C10 — constant response confidence, entry shared by both keys -/

/-- C10: in every `/form-fields/map` response, every mapping entry carries
the constant confidence `0.9` whatever layer resolved the field (value
`none` included), and for each field the same entry is written under the
field's fingerprint key and its index key. -/
theorem C10_constant_confidence (nowY nowM : Nat) (db : DB) (uid : Nat)
    (profile : Profile) (apiKey : Bool) (oracle : LLMOracle)
    (fields : List Field) (out : MapOut)
    (hout : mapFields nowY nowM db uid profile apiKey oracle fields = some out) :
    (∀ kv ∈ out.writes, kv.2.confidence = 0.9) ∧
    (∀ f ∈ fields, ∃ e : MapEntry, e.confidence = 0.9 ∧
      (compute_field_fingerprint f, e) ∈ out.writes ∧
      (fieldIdxKey f, e) ∈ out.writes) := by
  rw [mapFields_writes hout]
  constructor
  · intro kv hkv
    exact buildWrites_conf hkv
  · intro f hf
    have hp : (compute_field_fingerprint f, f) ∈ fieldsWithFp fields :=
      List.mem_map_of_mem _ hf
    obtain ⟨h1, h2⟩ := @buildWrites_mem
      (finalUserMap nowY nowM db uid profile apiKey oracle fields) _ _ hp
    exact ⟨_, rfl, h1, h2⟩

/-- C10 witness: a concrete one-field request carrying the constant
confidence under both keys. -/
theorem C10_constant_confidence_witness :
    ∃ out, mapFields 2026 10 { } 1 { } false none
        [{ label := some "Email", type := some "text", index := some "0" }] =
      some out ∧
    ∃ e : MapEntry, e.confidence = 0.9 ∧
      (compute_field_fingerprint
        { label := some "Email", type := some "text", index := some "0" }, e) ∈
        out.writes ∧
      (fieldIdxKey
        { label := some "Email", type := some "text", index := some "0" }, e) ∈
        out.writes := by
  obtain ⟨out, hout⟩ := mapFields_isSome 2026 10 { } 1 { } false none
    [{ label := some "Email", type := some "text", index := some "0" }]
    (by simp)
  exact ⟨out, hout, (C10_constant_confidence 2026 10 { } 1 { } false none _ _
    hout).2 _ (List.mem_singleton_self _)⟩

/-! ## C5 — generative unavailability degrades to null values, the batch
never fails -/

theorem llm_unavailable_empty {nowY nowM : Nat} {apiKey : Bool}
    {oracle : LLMOracle} {fieldsWithFp : List (String × Field)}
    {profile : Profile} (hun : apiKey = false ∨ oracle = none) :
    mapFormFieldsLlmForMisses nowY nowM apiKey oracle fieldsWithFp profile = [] := by
  unfold mapFormFieldsLlmForMisses
  rcases hun with h | h
  · subst h
    simp
  · subst h
    split
    · rfl
    · split
      · rfl
      · rfl

theorem finalUserMap_unavailable {nowY nowM : Nat} {db : DB} {uid : Nat}
    {profile : Profile} {apiKey : Bool} {oracle : LLMOracle}
    {fields : List Field} (hun : apiKey = false ∨ oracle = none) :
    finalUserMap nowY nowM db uid profile apiKey oracle fields =
      requestUserMap db uid profile fields := by
  unfold finalUserMap llmResultsOf
  simp only [llm_unavailable_empty hun, ite_self, List.foldl_nil]

/-- C5 counterexample: with the generative capability unavailable, a field
that reached the generative step resolves to
`{value: none, confidence: 0.9, reason: ""}` — not to the claimed
`{value: null, confidence: 0, reason: "unavailable"}` (the batch still
succeeds). -/
theorem C5_counterexample :
    (mapFields 2026 10 { } 1 { } true none
        [{ label := some "Email", type := some "text", index := some "0" }]).map
      (fun o => o.writes.map (fun kv => (kv.2.value, kv.2.reason))) =
      some [(none, ""), (none, "")] ∧
    (mapFields 2026 10 { } 1 { } true none
        [{ label := some "Email", type := some "text", index := some "0" }]).map
      (fun o => o.writes.map (fun kv => kv.2.confidence)) =
      some [0.9, 0.9] ∧
    (0.9 : ℚ) ≠ 0 ∧ "" ≠ "unavailable" := by
  obtain ⟨out, hout⟩ := mapFields_isSome 2026 10 { } 1 { } true none
    [{ label := some "Email", type := some "text", index := some "0" }]
    (by simp)
  have hw := mapFields_writes hout
  refine ⟨?_, ?_, by norm_num, by decide⟩
  · rw [hout]
    simp only [Option.map_some']
    have : out.writes.map (fun kv => (kv.2.value, kv.2.reason)) =
        [(none, ""), (none, "")] := by
      rw [hw, finalUserMap_unavailable (Or.inr rfl)]
      have hmiss : List.lookup
          (compute_field_fingerprint
            { label := some "Email", type := some "text", index := some "0" })
          (requestUserMap { } 1 { }
            [{ label := some "Email", type := some "text", index := some "0" }]) =
          none := by decide
      simp [buildWrites, fieldsWithFp, entryFor, hmiss]
    rw [this]
  · rw [hout]
    simp only [Option.map_some']
    rw [hw]
    simp [buildWrites, fieldsWithFp, entryFor]

/-- C5 (amended): when the generative capability is missing or its call
errors, the request still returns an entry for every field under both keys
(the batch never fails), and every field that the store layers left
unresolved gets `{value: none, confidence: 0.9, reason: ""}` — null value,
but confidence `0.9` and empty reason rather than the spec's
`{null, 0, "unavailable"}`. -/
theorem C5_unavailable_degrades (nowY nowM : Nat) (db : DB) (uid : Nat)
    (profile : Profile) (apiKey : Bool) (oracle : LLMOracle)
    (fields : List Field) (out : MapOut)
    (hun : apiKey = false ∨ oracle = none)
    (hout : mapFields nowY nowM db uid profile apiKey oracle fields = some out) :
    (∀ f ∈ fields, ∃ e : MapEntry,
      (compute_field_fingerprint f, e) ∈ out.writes ∧
      (fieldIdxKey f, e) ∈ out.writes) ∧
    (∀ f ∈ fields,
      (List.lookup (compute_field_fingerprint f)
        (requestUserMap db uid profile fields)).isNone →
      ∃ e : MapEntry,
        (compute_field_fingerprint f, e) ∈ out.writes ∧
        (fieldIdxKey f, e) ∈ out.writes ∧
        e.value = none ∧ e.confidence = 0.9 ∧ e.reason = "") := by
  rw [mapFields_writes hout, finalUserMap_unavailable hun]
  constructor
  · intro f hf
    have hp : (compute_field_fingerprint f, f) ∈ fieldsWithFp fields :=
      List.mem_map_of_mem _ hf
    obtain ⟨h1, h2⟩ :=
      @buildWrites_mem (requestUserMap db uid profile fields) _ _ hp
    exact ⟨_, h1, h2⟩
  · intro f hf hmiss
    have hp : (compute_field_fingerprint f, f) ∈ fieldsWithFp fields :=
      List.mem_map_of_mem _ hf
    obtain ⟨h1, h2⟩ :=
      @buildWrites_mem (requestUserMap db uid profile fields) _ _ hp
    refine ⟨_, h1, h2, ?_, rfl, rfl⟩
    simp only [entryFor]
    exact Option.isNone_iff_eq_none.mp hmiss

/-- C5 witness: a concrete unavailable-capability request degrading one
field to a null value with the response's constant confidence. -/
theorem C5_unavailable_degrades_witness :
    ∃ out, mapFields 2026 10 { } 1 { } true none
        [{ label := some "Email", type := some "text", index := some "0" }] =
      some out ∧
    ∃ e : MapEntry,
      (compute_field_fingerprint
        { label := some "Email", type := some "text", index := some "0" }, e) ∈
        out.writes ∧
      (fieldIdxKey
        { label := some "Email", type := some "text", index := some "0" }, e) ∈
        out.writes ∧
      e.value = none ∧ e.confidence = 0.9 ∧ e.reason = "" := by
  obtain ⟨out, hout⟩ := mapFields_isSome 2026 10 { } 1 { } true none
    [{ label := some "Email", type := some "text", index := some "0" }]
    (by simp)
  exact ⟨out, hout, (C5_unavailable_degrades 2026 10 { } 1 { } true none _ _
    (Or.inr rfl) hout).2 _ (List.mem_singleton_self _) (by decide)⟩

/-! ## Dict and fold lemmas -/

theorem lookup_dinsert_self {V : Type} (k : String) (v : V)
    (d : List (String × V)) : List.lookup k (dinsert k v d) = some v := by
  induction d with
  | nil => simp [dinsert, List.lookup]
  | cons kv rest ih =>
    obtain ⟨k2, v2⟩ := kv
    by_cases h : k2 = k
    · simp [dinsert, h, List.lookup]
    · have hne : (k == k2) = false := beq_eq_false_iff_ne.mpr (fun e => h e.symm)
      simp [dinsert, h, List.lookup, hne, ih]

theorem lookup_dinsert_ne {V : Type} {k k2 : String} (h : k2 ≠ k) (v : V)
    (d : List (String × V)) :
    List.lookup k2 (dinsert k v d) = List.lookup k2 d := by
  induction d with
  | nil => simp [dinsert, List.lookup, beq_eq_false_iff_ne.mpr h]
  | cons kv rest ih =>
    obtain ⟨k3, v3⟩ := kv
    by_cases h3 : k3 = k
    · subst h3
      simp [dinsert, List.lookup, beq_eq_false_iff_ne.mpr h]
    · simp [dinsert, h3, List.lookup, ih]

theorem lookup_dinsert_isSome {V : Type} {k2 : String} (k : String) (v : V)
    (d : List (String × V)) (h : (List.lookup k2 d).isSome) :
    (List.lookup k2 (dinsert k v d)).isSome := by
  by_cases he : k2 = k
  · subst he
    rw [lookup_dinsert_self]
    rfl
  · rwa [lookup_dinsert_ne he]

theorem mem_dinsert {V : Type} {kv : String × V} {k : String} {v : V}
    {d : List (String × V)} (h : kv ∈ dinsert k v d) :
    kv = (k, v) ∨ kv ∈ d := by
  induction d with
  | nil => simpa [dinsert] using h
  | cons kv2 rest ih =>
    obtain ⟨k2, v2⟩ := kv2
    by_cases h2 : k2 = k
    · simp only [dinsert, if_pos h2] at h
      rcases List.mem_cons.mp h with h | h
      · exact Or.inl h
      · exact Or.inr (List.mem_cons_of_mem _ h)
    · simp only [dinsert, if_neg h2] at h
      rcases List.mem_cons.mp h with h | h
      · exact Or.inr (h ▸ List.mem_cons_self _ _)
      · rcases ih h with h | h
        · exact Or.inl h
        · exact Or.inr (List.mem_cons_of_mem _ h)

theorem lookup_mem {V : Type} {k : String} {v : V} {d : List (String × V)}
    (h : List.lookup k d = some v) : (k, v) ∈ d := by
  induction d with
  | nil => simp [List.lookup] at h
  | cons kv rest ih =>
    obtain ⟨k2, v2⟩ := kv
    rcases hbe : (k == k2) with _ | _
    · simp only [List.lookup, hbe] at h
      exact List.mem_cons_of_mem _ (ih h)
    · simp only [List.lookup, hbe] at h
      have : k = k2 := eq_of_beq hbe
      subst this
      injection h with h
      subst h
      exact List.mem_cons_self _ _

/-- A left fold whose step never changes the lookup of `fp` leaves it
unchanged. -/
theorem foldl_lookup_preserve {α V : Type}
    (step : List (String × V) → α → List (String × V)) (items : List α)
    (fp : String)
    (h : ∀ x ∈ items, ∀ d, List.lookup fp (step d x) = List.lookup fp d) :
    ∀ d, List.lookup fp (items.foldl step d) = List.lookup fp d := by
  induction items with
  | nil => intro d; rfl
  | cons x rest ih =>
    intro d
    rw [List.foldl_cons,
      ih (fun y hy => h y (List.mem_cons_of_mem _ hy)),
      h x (List.mem_cons_self _ _)]

/-- A left fold of conditional inserts yields `some v` at `fp` when every
contributor at `fp` contributes `v` and either the base already holds `v`
or some contributor exists. -/
theorem foldl_dinsert_lookup {α V : Type} (key : α → String) (val : α → V)
    (cond : α → Prop) [DecidablePred cond] (items : List α) (fp : String)
    (v : V)
    (hagree : ∀ x ∈ items, key x = fp → cond x → val x = v) :
    ∀ d, (List.lookup fp d = some v ∨ ∃ x ∈ items, key x = fp ∧ cond x) →
    List.lookup fp
      (items.foldl (fun d x => if cond x then dinsert (key x) (val x) d else d) d) =
      some v := by
  induction items with
  | nil =>
    intro d hbase
    rcases hbase with hb | ⟨x, hx, _⟩
    · exact hb
    · exact absurd hx (List.not_mem_nil _)
  | cons x rest ih =>
    intro d hbase
    rw [List.foldl_cons]
    apply ih (fun y hy hky hcy => hagree y (List.mem_cons_of_mem _ hy) hky hcy)
    by_cases hc : cond x
    · rw [if_pos hc]
      by_cases hk : key x = fp
      · left
        rw [hk, lookup_dinsert_self,
          hagree x (List.mem_cons_self _ _) hk hc]
      · rcases hbase with hb | ⟨y, hy, hky, hcy⟩
        · left
          rwa [lookup_dinsert_ne (fun e => hk e.symm)]
        · rcases List.mem_cons.mp hy with rfl | hy
          · exact absurd hky hk
          · exact Or.inr ⟨y, hy, hky, hcy⟩
    · rw [if_neg hc]
      rcases hbase with hb | ⟨y, hy, hky, hcy⟩
      · exact Or.inl hb
      · rcases List.mem_cons.mp hy with rfl | hy
        · exact absurd hcy hc
        · exact Or.inr ⟨y, hy, hky, hcy⟩

/-- A left fold of conditional inserts keeps `fp` present when the base
holds it or a contributor exists. -/
theorem foldl_dinsert_isSome {α V : Type} (key : α → String) (val : α → V)
    (cond : α → Prop) [DecidablePred cond] (items : List α) (fp : String) :
    ∀ d, ((List.lookup fp d).isSome ∨ ∃ x ∈ items, key x = fp ∧ cond x) →
    (List.lookup fp
      (items.foldl (fun d x => if cond x then dinsert (key x) (val x) d else d) d)).isSome := by
  induction items with
  | nil =>
    intro d hbase
    rcases hbase with hb | ⟨x, hx, _⟩
    · exact hb
    · exact absurd hx (List.not_mem_nil _)
  | cons x rest ih =>
    intro d hbase
    rw [List.foldl_cons]
    apply ih
    by_cases hc : cond x
    · rw [if_pos hc]
      by_cases hk : key x = fp
      · left
        rw [hk, lookup_dinsert_self]
        rfl
      · rcases hbase with hb | ⟨y, hy, hky, hcy⟩
        · left
          rwa [lookup_dinsert_ne (fun e => hk e.symm)]
        · rcases List.mem_cons.mp hy with rfl | hy
          · exact absurd hky hk
          · exact Or.inr ⟨y, hy, hky, hcy⟩
    · rw [if_neg hc]
      rcases hbase with hb | ⟨y, hy, hky, hcy⟩
      · exact Or.inl hb
      · rcases List.mem_cons.mp hy with rfl | hy
        · exact absurd hcy hc
        · exact Or.inr ⟨y, hy, hky, hcy⟩

/-! ## The store layers and the per-user precedence -/

theorem foldl_mem_key_invariant {α V : Type} (P : String → Prop)
    (step : List (String × V) → α → List (String × V)) :
    ∀ (items : List α) (base : List (String × V)),
      (∀ x ∈ items, ∀ d kv, (∀ kv2 ∈ d, P kv2.1) → kv ∈ step d x → P kv.1) →
      (∀ kv ∈ base, P kv.1) → ∀ kv ∈ List.foldl step base items, P kv.1 := by
  intro items
  induction items with
  | nil => intro base _ hb kv hkv; exact hb kv hkv
  | cons x rest ih =>
    intro base hstep hb kv hkv
    exact ih (step base x)
      (fun y hy => hstep y (List.mem_cons_of_mem _ hy))
      (fun kv2 h2 => hstep x (List.mem_cons_self _ _) base kv2 hb h2) kv hkv

/-- `fp_to_field` holds only fingerprints of the given fields. -/
theorem fpToField_keys {fwf : List (String × Field)} :
    ∀ kv ∈ fpToField fwf, ∃ p ∈ fwf, p.1 = kv.1 := by
  unfold fpToField
  apply foldl_mem_key_invariant (fun k => ∃ p ∈ fwf, p.1 = k)
  · intro x hx d kv hd hkv
    rcases mem_dinsert hkv with rfl | h
    · exact ⟨x, (List.mem_filter.mp hx).1, rfl⟩
    · exact hd kv h
  · intro kv hkv; exact absurd hkv (List.not_mem_nil _)

theorem mem_llmFoldStep {nowY nowM : Nat} {profile : Profile}
    {fp_to_field : List (String × Field)}
    {result : List (String × LLMResult)} {item : LLMItem}
    {kv : String × LLMResult}
    (h : kv ∈ llmFoldStep nowY nowM profile fp_to_field result item) :
    kv ∈ result ∨ ∃ field, List.lookup kv.1 fp_to_field = some field := by
  revert h
  unfold llmFoldStep
  cases hffp : item.field_fp with
  | none => exact Or.inl
  | some fp =>
    dsimp only
    by_cases hfp : fp = ""
    · rw [if_pos hfp]
      exact Or.inl
    · rw [if_neg hfp]
      cases hlk : List.lookup fp fp_to_field with
      | none => exact Or.inl
      | some field =>
        intro h
        rcases mem_dinsert h with rfl | h
        · exact Or.inr ⟨field, hlk⟩
        · exact Or.inl h

/-- The keys of `map_form_fields_llm_for_misses`'s result are fingerprints
of the fields it was given. -/
theorem mapFormFieldsLlmForMisses_keys {nowY nowM : Nat} {apiKey : Bool}
    {oracle : LLMOracle} {fwf : List (String × Field)} {profile : Profile} :
    ∀ kv ∈ mapFormFieldsLlmForMisses nowY nowM apiKey oracle fwf profile,
      ∃ p ∈ fwf, p.1 = kv.1 := by
  unfold mapFormFieldsLlmForMisses
  split
  · intro kv hkv; exact absurd hkv (List.not_mem_nil _)
  · split
    · intro kv hkv; exact absurd hkv (List.not_mem_nil _)
    · split
      · intro kv hkv; exact absurd hkv (List.not_mem_nil _)
      · rename_i raw_fields
        apply foldl_mem_key_invariant (fun k => ∃ p ∈ fwf, p.1 = k)
        · intro item _ d kv hd hkv
          rcases mem_llmFoldStep hkv with h | ⟨field, hlk⟩
          · exact hd kv h
          · exact fpToField_keys _ (lookup_mem hlk)
        · intro kv hkv; exact absurd hkv (List.not_mem_nil _)

theorem llmResultsOf_keys {nowY nowM : Nat} {db : DB} {uid : Nat}
    {profile : Profile} {apiKey : Bool} {oracle : LLMOracle}
    {fields : List Field} :
    ∀ kv ∈ llmResultsOf nowY nowM db uid profile apiKey oracle fields,
      ∃ p ∈ llmFieldsOf db uid profile fields, p.1 = kv.1 := by
  unfold llmResultsOf
  dsimp only
  split
  · exact mapFormFieldsLlmForMisses_keys
  · intro kv hkv; exact absurd hkv (List.not_mem_nil _)

/-- Layer 2: the per-user answer dict holds the unique non-blank row's
value. -/
theorem userAnswerMap_lookup {db : DB} {uid : Nat} {fps : List String}
    {row : UARow} (hrow : row ∈ db.userAnswers) (huid : row.user_id = uid)
    (hfps : fps.contains row.field_fp = true)
    (hnb : pyStrip ((row.value).getD "") ≠ "")
    (huniq : ∀ r1 ∈ db.userAnswers, ∀ r2 ∈ db.userAnswers,
      r1.user_id = uid → r2.user_id = uid → r1.field_fp = r2.field_fp →
      r1 = r2) :
    List.lookup row.field_fp (userAnswerMap db uid fps) =
      some ((row.value).getD "") := by
  unfold userAnswerMap
  apply foldl_dinsert_lookup (fun r : UARow => r.field_fp)
    (fun r => (r.value).getD "") (fun r => pyStrip ((r.value).getD "") ≠ "")
  · intro r hr hk _
    have hmem := List.mem_filter.mp hr
    have hcond := hmem.2
    rw [Bool.and_eq_true, decide_eq_true_eq] at hcond
    rw [huniq r hmem.1 row hrow hcond.1 huid hk]
  · right
    refine ⟨row, List.mem_filter.mpr ⟨hrow, ?_⟩, rfl, hnb⟩
    rw [Bool.and_eq_true, decide_eq_true_eq]
    exact ⟨huid, hfps⟩

/-- Layer 3 never touches a fingerprint the per-user layer resolved. -/
theorem storeResolve_lookup_of_user {db : DB} {uid : Nat} {profile : Profile}
    {fps : List String} {fp : String} {v : String}
    (h : List.lookup fp (userAnswerMap db uid fps) = some v) :
    List.lookup fp (storeResolve db uid profile fps) = some v := by
  unfold storeResolve
  rw [foldl_lookup_preserve _ _ fp ?_ (userAnswerMap db uid fps)]
  · exact h
  · intro srow hsrow d
    have hmem := List.mem_filter.mp hsrow
    have hmiss : (List.lookup srow.field_fp (userAnswerMap db uid fps)).isNone := by
      have h2 := hmem.2
      rw [List.contains_iff_exists_mem_beq] at h2
      obtain ⟨fp2, hfp2, hbeq⟩ := h2
      have : srow.field_fp = fp2 := eq_of_beq hbeq
      subst this
      exact (List.mem_filter.mp hfp2).2
    have hne : srow.field_fp ≠ fp := by
      intro he
      rw [he, h] at hmiss
      simp at hmiss
    unfold sharedStep
    dsimp only
    split
    · exact lookup_dinsert_ne hne.symm _ d
    · rfl

/-- The generative fold never touches a fingerprint the store layers
resolved. -/
theorem finalUserMap_lookup_of_store {nowY nowM : Nat} {db : DB} {uid : Nat}
    {profile : Profile} {apiKey : Bool} {oracle : LLMOracle}
    {fields : List Field} {fp : String} {v : String}
    (h : List.lookup fp (requestUserMap db uid profile fields) = some v) :
    List.lookup fp (finalUserMap nowY nowM db uid profile apiKey oracle fields) =
      some v := by
  unfold finalUserMap
  rw [foldl_lookup_preserve _ _ fp ?_ (requestUserMap db uid profile fields)]
  · exact h
  · intro kv hkv d
    obtain ⟨p, hp, hpk⟩ := llmResultsOf_keys kv hkv
    have hmiss := (List.mem_filter.mp hp).2
    have hne : kv.1 ≠ fp := by
      intro he
      rw [hpk, he, h] at hmiss
      simp at hmiss
    unfold llmValueStep
    split
    · split
      · exact lookup_dinsert_ne hne.symm _ d
      · rfl
    · rfl

/-! ## C3 — per-user learned answers win the cascade -/

/-- C3: for every request field whose fingerprint has a stored, non-blank
`UserFieldAnswer` for the requesting user, the response entry (under both
keys) carries exactly that stored value, whatever the shared store and the
generative oracle would have said — the later layers are never consulted
for such a fingerprint. -/
theorem C3_per_user_answer_wins (nowY nowM : Nat) (db : DB) (uid : Nat)
    (profile : Profile) (apiKey : Bool) (oracle : LLMOracle)
    (fields : List Field) (out : MapOut)
    (hout : mapFields nowY nowM db uid profile apiKey oracle fields = some out)
    (f : Field) (hf : f ∈ fields) (row : UARow)
    (hrow : row ∈ db.userAnswers) (huid : row.user_id = uid)
    (hfp : row.field_fp = compute_field_fingerprint f)
    (hnb : pyStrip ((row.value).getD "") ≠ "")
    (huniq : ∀ r1 ∈ db.userAnswers, ∀ r2 ∈ db.userAnswers,
      r1.user_id = uid → r2.user_id = uid → r1.field_fp = r2.field_fp →
      r1 = r2) :
    ∃ e : MapEntry,
      (compute_field_fingerprint f, e) ∈ out.writes ∧
      (fieldIdxKey f, e) ∈ out.writes ∧
      e.value = row.value := by
  rw [mapFields_writes hout]
  have hp : (compute_field_fingerprint f, f) ∈ fieldsWithFp fields :=
    List.mem_map_of_mem _ hf
  have hcont : ((fieldsWithFp fields).map (·.1)).contains row.field_fp = true := by
    rw [List.contains_iff_exists_mem_beq]
    exact ⟨row.field_fp, List.mem_map.mpr ⟨(compute_field_fingerprint f, f),
      hp, hfp.symm⟩, by simp⟩
  have hua := userAnswerMap_lookup hrow huid hcont hnb huniq
  have hstore : List.lookup row.field_fp
      (requestUserMap db uid profile fields) = some ((row.value).getD "") :=
    storeResolve_lookup_of_user hua
  have hfin := @finalUserMap_lookup_of_store nowY nowM _ _ _ apiKey oracle
    _ _ _ hstore
  obtain ⟨h1, h2⟩ := @buildWrites_mem
    (finalUserMap nowY nowM db uid profile apiKey oracle fields) _ _ hp
  refine ⟨_, h1, h2, ?_⟩
  show List.lookup (compute_field_fingerprint f)
    (finalUserMap nowY nowM db uid profile apiKey oracle fields) = row.value
  rw [← hfp, hfin]
  rcases hv : row.value with _ | v
  · rw [hv] at hnb
    exact absurd rfl hnb
  · rfl

/-- C3 witness: a stored per-user answer beats a shared profile-key hit and
a generative reply for the same fingerprint. -/
theorem C3_per_user_answer_wins_witness :
    ∃ (out : MapOut) (e : MapEntry),
      mapFields 2026 10 c3Db 1 c3Profile true c3Oracle [c3Field] = some out ∧
      (c3Fp, e) ∈ out.writes ∧ e.value = some "stored@x.com" := by
  obtain ⟨out, hout⟩ :=
    mapFields_isSome 2026 10 c3Db 1 c3Profile true c3Oracle [c3Field] (by simp)
  obtain ⟨e, h1, _, hval⟩ := C3_per_user_answer_wins 2026 10 c3Db 1 c3Profile
    true c3Oracle [c3Field] out hout c3Field (List.mem_singleton_self _)
    c3Row (List.mem_singleton_self _) rfl rfl (by decide)
    (by
      intro r1 hm1 r2 hm2 _ _ _
      have e1 : r1 = c3Row := List.mem_singleton.mp hm1
      have e2 : r2 = c3Row := List.mem_singleton.mp hm2
      rw [e1, e2])
  exact ⟨out, e, hout, h1, hval⟩

/-! ## C4 — authoritative rows against generative persistence -/

theorem mem_updateFirst_of_not {α : Type} {p : α → Bool} {f : α → α}
    {x : α} : ∀ {l : List α}, x ∈ l → p x = false → x ∈ updateFirst p f l := by
  intro l
  induction l with
  | nil => intro h; exact absurd h (List.not_mem_nil _)
  | cons y rest ih =>
    intro hx hpx
    rcases List.mem_cons.mp hx with rfl | hx
    · rw [updateFirst, if_neg (by simp [hpx])]
      exact List.mem_cons_self _ _
    · by_cases hpy : p y = true
      · rw [updateFirst, if_pos hpy]
        exact List.mem_cons_of_mem _ hx
      · rw [updateFirst, if_neg hpy]
        exact List.mem_cons_of_mem _ (ih hx hpx)

theorem mem_seenStep {llm_results : List (String × LLMResult)}
    {acc : List (String × Field × LLMResult)} {p : String × Field}
    {it : String × Field × LLMResult} (h : it ∈ seenStep llm_results acc p) :
    it ∈ acc ∨ it.1 = p.1 := by
  revert h
  unfold seenStep
  split
  · exact Or.inl
  · split
    · exact Or.inl
    · split
      · exact Or.inl
      · split
        · exact Or.inl
        · intro h
          rcases List.mem_append.mp h with h | h
          · exact Or.inl h
          · right
            rw [List.mem_singleton.mp h]

theorem persistSeen_keys {fields : List (String × Field)}
    {llm_results : List (String × LLMResult)} :
    ∀ it ∈ persistSeen fields llm_results, ∃ p ∈ fields, p.1 = it.1 := by
  unfold persistSeen
  suffices h : ∀ (fs : List (String × Field))
      (acc : List (String × Field × LLMResult)),
      (∀ it ∈ acc, ∃ p ∈ fields, p.1 = it.1) →
      (∀ p ∈ fs, p ∈ fields) →
      ∀ it ∈ fs.foldl (seenStep llm_results) acc, ∃ p ∈ fields, p.1 = it.1 by
    exact h fields [] (fun it hit => absurd hit (List.not_mem_nil _))
      (fun p hp => hp)
  intro fs
  induction fs with
  | nil => intro acc hacc _ it hit; exact hacc it hit
  | cons p rest ih =>
    intro acc hacc hsub it hit
    refine ih (seenStep llm_results acc p) ?_
      (fun q hq => hsub q (List.mem_cons_of_mem _ hq)) it hit
    intro it2 hit2
    rcases mem_seenStep hit2 with h | h
    · exact hacc it2 h
    · exact ⟨p, hsub p (List.mem_cons_self _ _), h.symm⟩

/-- `_persist_llm_results` leaves untouched every stored row whose
fingerprint it was not given. -/
theorem mem_persistUAUpsert {uid : Nat} {fp v : String} {c : ℚ}
    {ln : String} {row : UARow} {ua : List UARow}
    (hne : fp ≠ row.field_fp) (hrow : row ∈ ua) :
    row ∈ persistUAUpsert uid fp v c ln ua := by
  unfold persistUAUpsert
  split
  · exact mem_updateFirst_of_not hrow (by simp [hne.symm])
  · exact List.mem_append_left _ hrow

theorem persistStep_preserves_row {uid : Nat} {profile : Profile}
    {ats : String} {acc : DB × List String}
    {item : String × Field × LLMResult} {row : UARow}
    (hne : item.1 ≠ row.field_fp) (hrow : row ∈ acc.1.userAnswers) :
    row ∈ (persistStep uid profile ats acc item).1.userAnswers := by
  unfold persistStep
  split
  · exact hrow
  · dsimp only
    split
    · exact mem_persistUAUpsert hne hrow
    · split
      · split
        · exact mem_persistUAUpsert hne hrow
        · exact mem_persistUAUpsert hne hrow
      · exact mem_persistUAUpsert hne hrow

theorem foldl_persist_preserves_row {uid : Nat} {profile : Profile}
    {ats : String} {row : UARow} :
    ∀ (items : List (String × Field × LLMResult)) (acc : DB × List String),
      row ∈ acc.1.userAnswers → (∀ it ∈ items, it.1 ≠ row.field_fp) →
      row ∈ (items.foldl (persistStep uid profile ats) acc).1.userAnswers := by
  intro items
  induction items with
  | nil => intro acc h _; exact h
  | cons it rest ih =>
    intro acc hrow hne
    exact ih _ (persistStep_preserves_row
        (hne it (List.mem_cons_self _ _)) hrow)
      (fun it2 h2 => hne it2 (List.mem_cons_of_mem _ h2))

theorem foldl_lookup_isSome_mono {α V : Type} (fp : String)
    (step : List (String × V) → α → List (String × V)) (items : List α)
    (h : ∀ x ∈ items, ∀ d, (List.lookup fp d).isSome →
      (List.lookup fp (step d x)).isSome) :
    ∀ d, (List.lookup fp d).isSome →
      (List.lookup fp (items.foldl step d)).isSome := by
  induction items with
  | nil => intro d hd; exact hd
  | cons x rest ih =>
    intro d hd
    exact ih (fun y hy => h y (List.mem_cons_of_mem _ hy)) _
      (h x (List.mem_cons_self _ _) d hd)

/-- A fingerprint present in the per-user layer stays present through the
shared layer. -/
theorem storeResolve_isSome {db : DB} {uid : Nat} {profile : Profile}
    {fps : List String} {fp : String}
    (h : (List.lookup fp (userAnswerMap db uid fps)).isSome) :
    (List.lookup fp (storeResolve db uid profile fps)).isSome := by
  unfold storeResolve
  apply foldl_lookup_isSome_mono fp (sharedStep profile) _ ?_ _ h
  intro srow _ d hd
  unfold sharedStep
  dsimp only
  split
  · exact lookup_dinsert_isSome _ _ _ hd
  · exact hd

/-- A stored, non-blank per-user answer makes its fingerprint present in
the store layers' map. -/
theorem requestUserMap_isSome_of_row {db : DB} {uid : Nat}
    {profile : Profile} {fields : List Field} {row : UARow}
    (hrow : row ∈ db.userAnswers) (huid : row.user_id = uid)
    (hnb : pyStrip ((row.value).getD "") ≠ "")
    (hfps : ((fieldsWithFp fields).map (·.1)).contains row.field_fp = true) :
    (List.lookup row.field_fp (requestUserMap db uid profile fields)).isSome := by
  apply storeResolve_isSome
  unfold userAnswerMap
  apply foldl_dinsert_isSome (fun r : UARow => r.field_fp)
    (fun r => (r.value).getD "") (fun r => pyStrip ((r.value).getD "") ≠ "")
  right
  refine ⟨row, List.mem_filter.mpr ⟨hrow, ?_⟩, rfl, hnb⟩
  rw [Bool.and_eq_true, decide_eq_true_eq]
  exact ⟨huid, hfps⟩

/-- C4 counterexample: `_persist_llm_results` called for a fingerprint that
already has a `user_edit` row overwrites the row's value and source (and
confidence) with the generative result — nothing in the function guards the
authoritative sources. -/
theorem C4_counterexample :
    c4Row.source = "user_edit" ∧ c4Row.value = some "user value" ∧
    (persistLlmResults c4Db 1 [("fpX", { label := some "X" })]
        [("fpX", c4Result)] { } "unknown").userAnswers.map
      (fun r => (r.source, r.value)) = [("llm", some "llm value")] := by
  refine ⟨rfl, rfl, ?_⟩
  decide

/-- C4 (amended): within the `/form-fields/map` flow, every stored row of
the requesting user with a non-blank value — whatever its source — survives
generative persistence untouched: only fingerprints the store layers left
unresolved are passed to `_persist_llm_results`.  (`_persist_llm_results`
itself overwrites unconditionally, and a blank-valued row may be
overwritten, as the counterexample shows.) -/
theorem C4_authoritative_rows_preserved (nowY nowM : Nat) (db : DB)
    (uid : Nat) (profile : Profile) (apiKey : Bool) (oracle : LLMOracle)
    (fields : List Field) (out : MapOut)
    (hout : mapFields nowY nowM db uid profile apiKey oracle fields = some out)
    (row : UARow) (hrow : row ∈ db.userAnswers) (huid : row.user_id = uid)
    (hnb : pyStrip ((row.value).getD "") ≠ "") :
    row ∈ out.db.userAnswers := by
  rw [mapFields_db hout]
  split
  · unfold persistLlmResults
    apply foldl_persist_preserves_row _ _ hrow
    intro it hit hfpeq
    obtain ⟨p, hp, hpk⟩ := persistSeen_keys it hit
    have hmem := List.mem_filter.mp hp
    have hmiss : (List.lookup p.1
        (requestUserMap db uid profile fields)).isNone = true := hmem.2
    have hcont : ((fieldsWithFp fields).map (·.1)).contains row.field_fp = true := by
      rw [List.contains_iff_exists_mem_beq]
      exact ⟨row.field_fp, List.mem_map.mpr ⟨p, hmem.1, by rw [hpk, hfpeq]⟩,
        by simp⟩
    have hsome := @requestUserMap_isSome_of_row _ _ profile _ _
      hrow huid hnb hcont
    rw [hpk, hfpeq, Option.isNone_iff_eq_none] at hmiss
    rw [hmiss] at hsome
    simp at hsome
  · exact hrow

theorem C4_authoritative_rows_preserved_witness :
    ∃ out, mapFields 2026 10 c3Db 1 c3Profile true c3Oracle [c3Field] =
        some out ∧ c3Row ∈ out.db.userAnswers := by
  obtain ⟨out, hout⟩ :=
    mapFields_isSome 2026 10 c3Db 1 c3Profile true c3Oracle [c3Field] (by simp)
  exact ⟨out, hout,
    C4_authoritative_rows_preserved 2026 10 c3Db 1 c3Profile true c3Oracle
      [c3Field] out hout c3Row (List.mem_singleton_self _) rfl (by decide)⟩

/-! ## C2 — dropdown containment in `_clean_field_value` -/

/-- C2 counterexample: a select `"Country"` field with options
`["United States"]` and generative value `"india"` resolves — through the
`COUNTRY_OPTION_FALLBACK` table, in the "options truncated" branch — to
`"India +91"`, a string that is not a member of the field's options
list. -/
theorem C2_counterexample :
    fieldTypeOf c2Field = "select" ∧
    fieldOptions c2Field = ["United States"] ∧
    (cleanFieldValue 2026 10 c2Field c2Map { }).value = some "India +91" ∧
    (fieldOptions c2Field).contains "India +91" = false := by
  decide

/-- Under the hypotheses that exclude the country, school and company
fallbacks, the dropdown block emits `none` or a member of the options
list. -/
theorem cleanSelectBlock_containment (field : Field) (mapping : Mapping)
    (fl ft v : String) (hval : mapping.value = some v) (hstrip : pyStrip v = v)
    (hcountry : strContains (fl ++ " " ++ ft) "country" = false)
    (hs1 : strContains (fl ++ " " ++ ft) "school" = false)
    (hs2 : strContains (fl ++ " " ++ ft) "university" = false)
    (hs3 : strContains (fl ++ " " ++ ft) "college" = false)
    (hs4 : strContains (fl ++ " " ++ ft) "institution" = false)
    (hc1 : strContains (fl ++ " " ++ ft) "company" = false)
    (hc2 : strContains (fl ++ " " ++ ft) "employer" = false)
    (hc3 : strContains (fl ++ " " ++ ft) "organization" = false) :
    (cleanSelectBlock field mapping fl ft).value = none ∨
      ∃ o ∈ fieldOptions field,
        (cleanSelectBlock field mapping fl ft).value = some o := by
  unfold cleanSelectBlock
  rw [hval]
  simp only [Option.getD_some, hstrip]
  split
  · next h =>
    obtain ⟨b, hb, hbeq⟩ := List.contains_iff_exists_mem_beq.mp h
    have hvb : v = b := eq_of_beq hbeq
    refine Or.inr ⟨v, ?_, hval⟩
    rw [hvb]
    exact (List.mem_filter.mp hb).1
  · split
    · next option heq =>
      exact Or.inr ⟨option,
        (List.mem_filter.mp (List.mem_of_find?_eq_some heq)).1, rfl⟩
    · simp only [hcountry, hs1, hs2, hs3, hs4, hc1, hc2, hc3,
        Bool.false_and, Bool.and_false, Bool.false_or, Bool.or_false,
        List.any_cons, List.any_nil, Bool.false_eq_true, if_false]
      split
      · next option heq =>
        exact Or.inr ⟨option,
          (List.mem_filter.mp (List.mem_of_find?_eq_some heq)).1, rfl⟩
      · exact Or.inl rfl

/-- C2 (amended): for a select field with options, whenever none of the
other semantic-safety branches of `_clean_field_value` fires (not an
email/phone/postal/school/linkedin/year/yes-no/experience field, the value
stripped, non-empty and not `RESUME_FILE`) and the field is not a
country, school/institution or company field, the cleaned value is null or
a member of the field's options list.  (Country fields can emit a
fallback string absent from the options, and school/company fields can
return the raw value for an Other/specify flow — see the
counterexample.) -/
theorem C2_dropdown_containment (nowY nowM : Nat) (field : Field)
    (mapping : Mapping) (profile : Profile) (v : String)
    (hval : mapping.value = some v) (hv0 : v ≠ "") (hstrip : pyStrip v = v)
    (hR : v ≠ "RESUME_FILE")
    (hem1 : strContains (fieldTextOf field) "email" = false)
    (hem2 : strContains (fieldTextOf field) "e-mail" = false)
    (hcc : isCountryCodeFieldOf field = false)
    (hph1 : strContains (fieldTextOf field) "phone" = false)
    (hph2 : strContains (fieldTextOf field) "mobile" = false)
    (hph3 : strContains (fieldTextOf field) "cell" = false)
    (hph4 : strContains (fieldTextOf field) "telephone" = false)
    (hpo1 : strContains (fieldTextOf field) "postal" = false)
    (hpo2 : strContains (fieldTextOf field) "zip" = false)
    (hpo3 : strContains (fieldTextOf field) "postcode" = false)
    (hsd : isSchoolOrDegreeField (fieldLabelOf field) (fieldTextOf field) = false)
    (hli : isLinkedinField (fieldLabelOf field) (fieldTextOf field) = false)
    (hyo : isYearOnlyField (fieldLabelOf field) (fieldTextOf field) = false)
    (hyn : isYesNoEmployeeQuestion (fieldLabelOf field) (fieldTextOf field) = false)
    (hld1 : strContains (fieldTextOf field) "company" = false)
    (hld2 : strContains (fieldTextOf field) "employer" = false)
    (hld3 : (strContains (fieldTextOf field) "title" &&
      strContains (fieldTextOf field) "job") = false)
    (hexp : strContains (fieldLabelOf field) "experience" = false)
    (htype : fieldTypeOf field = "select")
    (hopts : fieldOptions field ≠ [])
    (hcountry : strContains (fieldLabelOf field ++ " " ++ fieldTextOf field)
      "country" = false)
    (hs1 : strContains (fieldLabelOf field ++ " " ++ fieldTextOf field)
      "school" = false)
    (hs2 : strContains (fieldLabelOf field ++ " " ++ fieldTextOf field)
      "university" = false)
    (hs3 : strContains (fieldLabelOf field ++ " " ++ fieldTextOf field)
      "college" = false)
    (hs4 : strContains (fieldLabelOf field ++ " " ++ fieldTextOf field)
      "institution" = false)
    (hc1 : strContains (fieldLabelOf field ++ " " ++ fieldTextOf field)
      "company" = false)
    (hc2 : strContains (fieldLabelOf field ++ " " ++ fieldTextOf field)
      "employer" = false)
    (hc3 : strContains (fieldLabelOf field ++ " " ++ fieldTextOf field)
      "organization" = false) :
    (cleanFieldValue nowY nowM field mapping profile).value = none ∨
      ∃ o ∈ fieldOptions field,
        (cleanFieldValue nowY nowM field mapping profile).value = some o := by
  have hsel : cleanFieldValue nowY nowM field mapping profile =
      cleanSelectBlock field mapping (fieldLabelOf field) (fieldTextOf field) := by
    unfold cleanFieldValue
    rw [hval]
    simp [hv0, hR, hem1, hem2, hcc, hph1, hph2, hph3, hph4, hpo1, hpo2, hpo3,
      hsd, hli, hyo, hyn, hld1, hld2, hld3, hexp, htype, hopts]
  rw [hsel]
  exact cleanSelectBlock_containment field mapping (fieldLabelOf field)
    (fieldTextOf field) v hval hstrip hcountry hs1 hs2 hs3 hs4 hc1 hc2 hc3

theorem C2_dropdown_containment_witness :
    (cleanFieldValue 2026 10 c2SelField c2SelMap { }).value = none ∨
      ∃ o ∈ fieldOptions c2SelField,
        (cleanFieldValue 2026 10 c2SelField c2SelMap { }).value = some o :=
  C2_dropdown_containment 2026 10 c2SelField c2SelMap { } "Dr" rfl
    (by decide) (by decide) (by decide) (by decide) (by decide) (by decide)
    (by decide) (by decide) (by decide) (by decide) (by decide) (by decide)
    (by decide) (by decide) (by decide) (by decide) (by decide) (by decide)
    (by decide) (by decide) (by decide) (by decide) (by decide) (by decide)
    (by decide) (by decide) (by decide) (by decide) (by decide) (by decide)
    (by decide)

/-! ## C8 — cache eviction policy -/

theorem oldestStep_cases {V : Type} (acc : Option (String × Nat))
    (kv : String × Nat × V) (k0 : String) (t0 : Nat)
    (h : oldestStep acc kv = some (k0, t0)) :
    (acc = some (k0, t0) ∨ (kv.1 = k0 ∧ kv.2.1 = t0)) ∧
    t0 ≤ kv.2.1 ∧ (∀ ka ta, acc = some (ka, ta) → t0 ≤ ta) := by
  revert h
  unfold oldestStep
  cases acc with
  | none =>
    intro h
    injection h with h'
    rw [Prod.mk.injEq] at h'
    exact ⟨Or.inr h', h'.2.ge,
      fun ka ta hacc => absurd hacc (Option.noConfusion ·)⟩
  | some p =>
    obtain ⟨ka0, ta0⟩ := p
    intro h
    dsimp only at h
    by_cases hlt : kv.2.1 < ta0
    · rw [if_pos hlt] at h
      injection h with h'
      rw [Prod.mk.injEq] at h'
      refine ⟨Or.inr h', h'.2.ge, ?_⟩
      intro ka ta hacc
      injection hacc with h''
      rw [Prod.mk.injEq] at h''
      have e1 := h'.2
      have e2 := h''.2
      omega
    · rw [if_neg hlt] at h
      injection h with h'
      rw [Prod.mk.injEq] at h'
      refine ⟨Or.inl (by rw [h'.1, h'.2]), ?_, ?_⟩
      · have e1 := h'.2
        omega
      · intro ka ta hacc
        injection hacc with h''
        rw [Prod.mk.injEq] at h''
        have e1 := h'.2
        have e2 := h''.2
        omega

theorem oldestFold_spec {V : Type} :
    ∀ (l : List (String × Nat × V)) (acc : Option (String × Nat))
      (k0 : String) (t0 : Nat),
      l.foldl oldestStep acc = some (k0, t0) →
      (acc = some (k0, t0) ∨ ∃ v0, (k0, t0, v0) ∈ l) ∧
      (∀ kv ∈ l, t0 ≤ kv.2.1) ∧
      (∀ ka ta, acc = some (ka, ta) → t0 ≤ ta) := by
  intro l
  induction l with
  | nil =>
    intro acc k0 t0 h
    rw [List.foldl_nil] at h
    refine ⟨Or.inl h, fun kv hkv => absurd hkv (List.not_mem_nil _), ?_⟩
    intro ka ta hacc
    rw [hacc] at h
    injection h with h'
    rw [Prod.mk.injEq] at h'
    exact h'.2.ge
  | cons kv rest ih =>
    intro acc k0 t0 h
    rw [List.foldl_cons] at h
    obtain ⟨hmem, hrest, haccnew⟩ := ih (oldestStep acc kv) k0 t0 h
    have hsome : ∃ ka ta, oldestStep acc kv = some (ka, ta) := by
      unfold oldestStep
      cases acc with
      | none => exact ⟨kv.1, kv.2.1, rfl⟩
      | some p =>
        obtain ⟨ka0, ta0⟩ := p
        dsimp only
        by_cases hlt : kv.2.1 < ta0
        · rw [if_pos hlt]; exact ⟨kv.1, kv.2.1, rfl⟩
        · rw [if_neg hlt]; exact ⟨ka0, ta0, rfl⟩
    obtain ⟨ka, ta, hstep⟩ := hsome
    obtain ⟨hsmem, hsle, hsacc⟩ := oldestStep_cases acc kv ka ta hstep
    have hta : t0 ≤ ta := haccnew ka ta hstep
    refine ⟨?_, ?_, ?_⟩
    · rcases hmem with h1 | ⟨v0, hv0⟩
      · obtain ⟨hsmem2, _, _⟩ := oldestStep_cases acc kv k0 t0 h1
        rcases hsmem2 with h2 | h2
        · exact Or.inl h2
        · refine Or.inr ⟨kv.2.2, ?_⟩
          rw [← h2.1, ← h2.2]
          exact List.mem_cons_self _ _
      · exact Or.inr ⟨v0, List.mem_cons_of_mem _ hv0⟩
    · intro kv2 hkv2
      rcases List.mem_cons.mp hkv2 with rfl | h2
      · exact Nat.le_trans hta hsle
      · exact hrest kv2 h2
    · intro ka2 ta2 hacc
      exact Nat.le_trans hta (hsacc ka2 ta2 hacc)

/-- C8 counterexample: with the cache at the configured capacity 64, key
`"A"` (inserted at tick 0, read with a hit at tick 100) is evicted by the
next put, while key `"1"` (inserted at tick 1 and never read again)
survives — `_cache_put` evicts by minimum insertion time, not by least
recent use, because `_cache_get` never refreshes the stored tick. -/
theorem C8_counterexample :
    c8Cache.length = 64 ∧
    (cacheGet 300 100 c8Cache "A").2 = some 0 ∧
    (cacheGet 300 100 c8Cache "A").1 = c8Cache ∧
    List.lookup "A" (cachePut 64 101 (cacheGet 300 100 c8Cache "A").1 "C" 99)
      = none ∧
    List.lookup "1" (cachePut 64 101 (cacheGet 300 100 c8Cache "A").1 "C" 99)
      = some (1, 1) := by
  decide

/-- C8 (amended): the cache is capacity-bounded but the eviction policy is
insertion-order FIFO, not LRU: a fresh hit returns the cache unchanged
(the stored tick is never refreshed), and a put at capacity always evicts
the key holding the minimum stored insertion tick, whatever reads happened
since. -/
theorem C8_fifo_not_lru {V : Type} (ttl maxE now now2 : Nat)
    (cache : List (String × Nat × V)) (key key2 : String) (t : Nat) (v w : V)
    (k0 : String)
    (hhit : List.lookup key cache = some (t, v)) (hfresh : now - t ≤ ttl)
    (hfull : cache.length ≥ maxE) (hk0 : oldestKey cache = some k0) :
    cacheGet ttl now cache key = (cache, some v) ∧
    (∃ t0 v0, (k0, t0, v0) ∈ cache ∧ ∀ kv ∈ cache, t0 ≤ kv.2.1) ∧
    cachePut maxE now2 cache key2 w =
      dinsert key2 (now2, w) (dremove k0 cache) := by
  refine ⟨?_, ?_, ?_⟩
  · unfold cacheGet
    rw [hhit]
    dsimp only
    rw [if_neg (Nat.not_lt.mpr hfresh)]
  · unfold oldestKey at hk0
    obtain ⟨p, hp, hpk⟩ := Option.map_eq_some'.mp hk0
    obtain ⟨ka, ta⟩ := p
    obtain ⟨hmem, hall, _⟩ := oldestFold_spec cache none ka ta hp
    rcases hmem with h | ⟨v0, hv0⟩
    · exact absurd h (Option.noConfusion ·)
    · exact ⟨ta, v0, hpk ▸ hv0, hall⟩
  · unfold cachePut
    dsimp only
    rw [if_pos hfull, hk0]

theorem C8_fifo_not_lru_witness :
    cacheGet 300 100 [("A", 0, 0), ("B", 1, 1)] "A" =
      ([("A", 0, 0), ("B", 1, 1)], some 0) ∧
    (∃ t0 v0, ("A", t0, v0) ∈ [("A", (0 : Nat), (0 : Nat)), ("B", 1, 1)] ∧
      ∀ kv ∈ [("A", (0 : Nat), (0 : Nat)), ("B", 1, 1)], t0 ≤ kv.2.1) ∧
    cachePut 2 101 [("A", 0, 0), ("B", 1, 1)] "C" 2 =
      dinsert "C" (101, 2) (dremove "A" [("A", 0, 0), ("B", 1, 1)]) :=
  C8_fifo_not_lru 300 2 100 101 [("A", (0 : Nat), (0 : Nat)), ("B", 1, 1)]
    "A" "C" 0 0 2 "A" (by decide) (by decide) (by decide) (by decide)

/-! ## C7 — feedback upsert and idempotence -/

theorem filter_updateFirst_disjoint {α : Type} (P Q : α → Bool) (f : α → α)
    (hPQ : ∀ r, Q r = true → P r = false)
    (hPf : ∀ r, Q r = true → P (f r) = false) :
    ∀ l : List α, List.filter P (updateFirst Q f l) = List.filter P l := by
  intro l
  induction l with
  | nil => rfl
  | cons x rest ih =>
    by_cases hq : Q x = true
    · rw [updateFirst, if_pos hq]
      simp only [List.filter_cons, hPf x hq, hPQ x hq, Bool.false_eq_true,
        if_false]
    · rw [updateFirst, if_neg hq]
      rw [List.filter_cons, List.filter_cons, ih]

theorem filter_updateFirst_self {α : Type} (P : α → Bool) (f : α → α)
    (hf : ∀ r, P r = true → P (f r) = true) :
    ∀ l : List α,
      List.filter P (updateFirst P f l) =
        match List.filter P l with
        | [] => []
        | r :: rest => f r :: rest := by
  intro l
  induction l with
  | nil => rfl
  | cons x rest ih =>
    by_cases hp : P x = true
    · rw [updateFirst, if_pos hp]
      rw [List.filter_cons, List.filter_cons, if_pos (hf x hp), if_pos hp]
    · rw [updateFirst, if_neg hp]
      rw [List.filter_cons, List.filter_cons, if_neg hp, if_neg hp]
      exact ih

theorem filter_uaUpsert (uid : Nat) (fp value src : String) (conf : ℚ)
    (ln : String) (ua : List UARow) :
    List.filter (uaKey uid fp) (feedbackUAUpsert uid fp value src conf ln ua) =
      match List.filter (uaKey uid fp) ua with
      | [] =>
        [{ user_id := uid
           field_fp := fp
           label_norm := ln
           value := some value
           source := src
           confidence := conf
           used_count := 1 }]
      | r0 :: rest =>
        { r0 with
          value := some value
          source := src
          confidence := conf
          used_count := r0.used_count + 1 } :: rest := by
  unfold feedbackUAUpsert
  by_cases hany : ua.any (uaKey uid fp) = true
  · rw [if_pos hany]
    rw [filter_updateFirst_self (uaKey uid fp)
      (fun r =>
        { r with
          value := some value
          source := src
          confidence := conf
          used_count := r.used_count + 1 })
      (fun r hr => hr)]
    cases heq : List.filter (uaKey uid fp) ua with
    | nil =>
      obtain ⟨x, hx, hpx⟩ := List.any_eq_true.mp hany
      have hmem : x ∈ List.filter (uaKey uid fp) ua :=
        List.mem_filter.mpr ⟨hx, hpx⟩
      rw [heq] at hmem
      exact absurd hmem (List.not_mem_nil _)
    | cons r0 rest => rfl
  · rw [if_neg hany]
    have hnil : List.filter (uaKey uid fp) ua = [] := by
      cases heq : List.filter (uaKey uid fp) ua with
      | nil => rfl
      | cons r0 rest =>
        have hmem : r0 ∈ List.filter (uaKey uid fp) ua := by
          rw [heq]
          exact List.mem_cons_self _ _
        obtain ⟨hm, hp⟩ := List.mem_filter.mp hmem
        exact absurd (List.any_eq_true.mpr ⟨r0, hm, hp⟩) hany
    rw [List.filter_append, hnil]
    simp [uaKey]

theorem filter_spUpsert (key : SPRow → Bool) (newRow : SPRow)
    (hnew : key newRow = true)
    (hkf : ∀ r, key r = true →
      key { r with success_count := r.success_count + 1 } = true)
    (sp : List SPRow) :
    List.filter key (feedbackSPUpsert key newRow sp) =
      match List.filter key sp with
      | [] => [newRow]
      | s0 :: rest =>
        { s0 with success_count := s0.success_count + 1 } :: rest := by
  unfold feedbackSPUpsert
  by_cases hany : sp.any key = true
  · rw [if_pos hany]
    rw [filter_updateFirst_self key _ hkf]
    cases heq : List.filter key sp with
    | nil =>
      obtain ⟨x, hx, hpx⟩ := List.any_eq_true.mp hany
      have hmem : x ∈ List.filter key sp := List.mem_filter.mpr ⟨hx, hpx⟩
      rw [heq] at hmem
      exact absurd hmem (List.not_mem_nil _)
    | cons s0 rest => rfl
  · rw [if_neg hany]
    have hnil : List.filter key sp = [] := by
      cases heq : List.filter key sp with
      | nil => rfl
      | cons s0 rest =>
        have hmem : s0 ∈ List.filter key sp := by
          rw [heq]
          exact List.mem_cons_self _ _
        obtain ⟨hm, hp⟩ := List.mem_filter.mp hmem
        exact absurd (List.any_eq_true.mpr ⟨s0, hm, hp⟩) hany
    rw [List.filter_append, hnil]
    simp [hnew]

theorem filter_uaUpsert_ne (uid : Nat) (fp fp2 : String) (hne : fp2 ≠ fp)
    (value src : String) (conf : ℚ) (ln : String) (ua : List UARow) :
    List.filter (uaKey uid fp) (feedbackUAUpsert uid fp2 value src conf ln ua)
      = List.filter (uaKey uid fp) ua := by
  have hd : ∀ r : UARow, uaKey uid fp2 r = true → uaKey uid fp r = false := by
    intro r hr
    unfold uaKey at hr ⊢
    rw [Bool.and_eq_true, decide_eq_true_eq, decide_eq_true_eq] at hr
    rw [hr.2]
    simp [hne]
  unfold feedbackUAUpsert
  split
  · refine filter_updateFirst_disjoint _ _ _ hd ?_ ua
    intro r hr
    exact hd r hr
  · rw [List.filter_append]
    have hnewf : uaKey uid fp
        { user_id := uid, field_fp := fp2, label_norm := ln,
          value := some value, source := src, confidence := conf,
          used_count := 1 } = false := by
      unfold uaKey
      simp [hne]
    simp [hnewf]

theorem feedbackSelKey_fp (ats : Option String) (fd : FeedbackField)
    (sel : String) (r : SPRow) (h : feedbackSelKey ats fd sel r = true) :
    r.field_fp = fd.fingerprint := by
  unfold feedbackSelKey at h
  rw [Bool.and_eq_true, Bool.and_eq_true, Bool.and_eq_true] at h
  exact of_decide_eq_true h.1.1.1

theorem filter_spUpsert_ne (ats : Option String) (fd g : FeedbackField)
    (sel sel2 : String) (hne : g.fingerprint ≠ fd.fingerprint)
    (newRow : SPRow) (hnewfp : newRow.field_fp = g.fingerprint)
    (sp : List SPRow) :
    List.filter (feedbackSelKey ats fd sel)
      (feedbackSPUpsert (feedbackSelKey ats g sel2) newRow sp) =
      List.filter (feedbackSelKey ats fd sel) sp := by
  have hd : ∀ r : SPRow, feedbackSelKey ats g sel2 r = true →
      feedbackSelKey ats fd sel r = false := by
    intro r hr
    have hfp := feedbackSelKey_fp ats g sel2 r hr
    unfold feedbackSelKey
    rw [hfp]
    simp [hne]
  unfold feedbackSPUpsert
  split
  · refine filter_updateFirst_disjoint _ _ _ hd ?_ sp
    intro r hr
    exact hd r hr
  · rw [List.filter_append]
    have hnewf : feedbackSelKey ats fd sel newRow = false := by
      unfold feedbackSelKey
      rw [hnewfp]
      simp [hne]
    simp [hnewf]

theorem feedbackStep_other (uid : Nat) (ats_payload : Option String)
    (acc : DB × List SubRec) (g fd : FeedbackField) (sel : String)
    (hne : g.fingerprint ≠ fd.fingerprint) :
    List.filter (uaKey uid fd.fingerprint)
        (feedbackStep uid ats_payload acc g).1.userAnswers =
      List.filter (uaKey uid fd.fingerprint) acc.1.userAnswers ∧
    List.filter (feedbackSelKey ats_payload fd sel)
        (feedbackStep uid ats_payload acc g).1.selectorPerf =
      List.filter (feedbackSelKey ats_payload fd sel) acc.1.selectorPerf := by
  unfold feedbackStep
  split
  · exact ⟨rfl, rfl⟩
  · split
    · exact ⟨rfl, rfl⟩
    · dsimp only
      constructor
      · split
        · split
          · exact filter_uaUpsert_ne uid fd.fingerprint g.fingerprint hne
              _ _ _ _ _
          · exact filter_uaUpsert_ne uid fd.fingerprint g.fingerprint hne
              _ _ _ _ _
        · exact filter_uaUpsert_ne uid fd.fingerprint g.fingerprint hne
            _ _ _ _ _
      · split
        · split
          · exact filter_spUpsert_ne ats_payload fd g sel _ hne _ rfl _
          · rfl
        · rfl

theorem foldl_feedback_preserve (uid : Nat) (ats_payload : Option String)
    (fd : FeedbackField) (sel : String) :
    ∀ (gs : List FeedbackField) (acc : DB × List SubRec),
      (∀ g ∈ gs, g.fingerprint ≠ fd.fingerprint) →
      List.filter (uaKey uid fd.fingerprint)
          (gs.foldl (feedbackStep uid ats_payload) acc).1.userAnswers =
        List.filter (uaKey uid fd.fingerprint) acc.1.userAnswers ∧
      List.filter (feedbackSelKey ats_payload fd sel)
          (gs.foldl (feedbackStep uid ats_payload) acc).1.selectorPerf =
        List.filter (feedbackSelKey ats_payload fd sel) acc.1.selectorPerf := by
  intro gs
  induction gs with
  | nil => intro acc _; exact ⟨rfl, rfl⟩
  | cons g rest ih =>
    intro acc hh
    obtain ⟨h1, h2⟩ := ih (feedbackStep uid ats_payload acc g)
      (fun q hq => hh q (List.mem_cons_of_mem _ hq))
    obtain ⟨s1, s2⟩ := feedbackStep_other uid ats_payload acc g fd sel
      (hh g (List.mem_cons_self _ _))
    rw [List.foldl_cons]
    exact ⟨h1.trans s1, h2.trans s2⟩

theorem feedbackStep_main (uid : Nat) (ats_payload : Option String)
    (acc : DB × List SubRec) (fd : FeedbackField) (value sel : String)
    (hv : feedbackValue fd = some value) (hfp : fd.fingerprint ≠ "")
    (hsel : por fd.selector_used none = some sel)
    (hats : optTruthy (por fd.ats_platform ats_payload) = true) :
    (feedbackStep uid ats_payload acc fd).1.userAnswers =
      feedbackUAUpsert uid fd.fingerprint value (feedbackSrc fd)
        (feedbackConf fd)
        (strTake (normalize_label ((fd.label).getD "")) 255)
        acc.1.userAnswers ∧
    (feedbackStep uid ats_payload acc fd).1.selectorPerf =
      feedbackSPUpsert (feedbackSelKey ats_payload fd sel)
        { field_fp := fd.fingerprint
          ats_platform := feedbackAts ats_payload fd
          selector_type := feedbackSelType fd
          selector := sel
          success_count := 1
          fail_count := 0 }
        acc.1.selectorPerf := by
  unfold feedbackStep
  rw [hv]
  dsimp only
  rw [if_neg hfp]
  dsimp only
  rw [hsel]
  dsimp only
  rw [if_pos hats]
  exact ⟨rfl, rfl⟩

theorem updateFormStructure_preserves (db : DB) (domain url : String)
    (ats : Option String) (fields : List FeedbackField) :
    (updateFormStructure db domain url ats fields).userAnswers =
      db.userAnswers ∧
    (updateFormStructure db domain url ats fields).selectorPerf =
      db.selectorPerf := by
  unfold updateFormStructure
  dsimp only
  constructor <;> (repeat' split) <;> rfl

theorem submitFeedback_filters (db : DB) (uid : Nat) (payload : FeedbackIn)
    (fd : FeedbackField) (pre post : List FeedbackField) (value sel : String)
    (hfields : payload.fields = pre ++ fd :: post)
    (hpre : ∀ g ∈ pre, g.fingerprint ≠ fd.fingerprint)
    (hpost : ∀ g ∈ post, g.fingerprint ≠ fd.fingerprint)
    (hv : feedbackValue fd = some value) (hfp : fd.fingerprint ≠ "")
    (hsel : por fd.selector_used none = some sel)
    (hats : optTruthy (por fd.ats_platform payload.ats) = true) :
    uaFor uid fd.fingerprint (submitFeedback db uid payload).1 =
      (match uaFor uid fd.fingerprint db with
       | [] =>
         [{ user_id := uid
            field_fp := fd.fingerprint
            label_norm := strTake (normalize_label ((fd.label).getD "")) 255
            value := some value
            source := feedbackSrc fd
            confidence := feedbackConf fd
            used_count := 1 }]
       | r0 :: rest =>
         { r0 with
           value := some value
           source := feedbackSrc fd
           confidence := feedbackConf fd
           used_count := r0.used_count + 1 } :: rest) ∧
    spFor (feedbackSelKey payload.ats fd sel)
        (submitFeedback db uid payload).1 =
      (match spFor (feedbackSelKey payload.ats fd sel) db with
       | [] =>
         [{ field_fp := fd.fingerprint
            ats_platform := feedbackAts payload.ats fd
            selector_type := feedbackSelType fd
            selector := sel
            success_count := 1
            fail_count := 0 }]
       | s0 :: rest =>
         { s0 with success_count := s0.success_count + 1 } :: rest) := by
  unfold submitFeedback uaFor spFor
  dsimp only
  rw [(updateFormStructure_preserves _ payload.domain payload.url payload.ats
    payload.fields).1,
    (updateFormStructure_preserves _ payload.domain payload.url payload.ats
    payload.fields).2]
  dsimp only
  rw [hfields, List.foldl_append, List.foldl_cons]
  obtain ⟨p1, p2⟩ := foldl_feedback_preserve uid payload.ats fd sel pre
    (db, []) hpre
  obtain ⟨m1, m2⟩ := feedbackStep_main uid payload.ats
    (pre.foldl (feedbackStep uid payload.ats) (db, [])) fd value sel
    hv hfp hsel hats
  obtain ⟨q1, q2⟩ := foldl_feedback_preserve uid payload.ats fd sel post
    (feedbackStep uid payload.ats
      (pre.foldl (feedbackStep uid payload.ats) (db, [])) fd) hpost
  constructor
  · rw [q1, m1, filter_uaUpsert, p1]
  · rw [q2, m2, filter_spUpsert (feedbackSelKey payload.ats fd sel) _
      (by simp [feedbackSelKey]) (fun r hr => hr), p2]

/-- C7: for a submitted feedback field carrying a fingerprint and a
non-null value (its fingerprint unique in the submission, at most one
stored row for the `(user, fingerprint)` pair and for the selector key),
`submit_feedback` leaves exactly one `UserFieldAnswer` row for the pair,
with source `user_edit` and confidence 0.95 when edited, else
`form_submit` and confidence 1.0, and exactly one selector-performance
row; resubmitting the same payload adds no duplicate row and bumps that
row's `used_count` — and the selector row's `success_count` — by exactly
one. -/
theorem C7_feedback_upsert (db : DB) (uid : Nat) (payload : FeedbackIn)
    (fd : FeedbackField) (pre post : List FeedbackField) (value sel : String)
    (hfields : payload.fields = pre ++ fd :: post)
    (hpre : ∀ g ∈ pre, g.fingerprint ≠ fd.fingerprint)
    (hpost : ∀ g ∈ post, g.fingerprint ≠ fd.fingerprint)
    (hv : feedbackValue fd = some value) (hfp : fd.fingerprint ≠ "")
    (hsel : por fd.selector_used none = some sel)
    (hats : optTruthy (por fd.ats_platform payload.ats) = true)
    (huniq : (uaFor uid fd.fingerprint db).length ≤ 1)
    (hspuniq : (spFor (feedbackSelKey payload.ats fd sel) db).length ≤ 1) :
    ∃ r1 s1,
      uaFor uid fd.fingerprint (submitFeedback db uid payload).1 = [r1] ∧
      r1.value = some value ∧ r1.source = feedbackSrc fd ∧
      r1.confidence = feedbackConf fd ∧
      spFor (feedbackSelKey payload.ats fd sel)
        (submitFeedback db uid payload).1 = [s1] ∧
      uaFor uid fd.fingerprint
          (submitFeedback (submitFeedback db uid payload).1 uid payload).1 =
        [{ r1 with
           value := some value
           source := feedbackSrc fd
           confidence := feedbackConf fd
           used_count := r1.used_count + 1 }] ∧
      spFor (feedbackSelKey payload.ats fd sel)
          (submitFeedback (submitFeedback db uid payload).1 uid payload).1 =
        [{ s1 with success_count := s1.success_count + 1 }] := by
  obtain ⟨hua1, hsp1⟩ := submitFeedback_filters db uid payload fd pre post
    value sel hfields hpre hpost hv hfp hsel hats
  obtain ⟨hua2, hsp2⟩ := submitFeedback_filters (submitFeedback db uid payload).1
    uid payload fd pre post value sel hfields hpre hpost hv hfp hsel hats
  have hUA : ∃ r1, uaFor uid fd.fingerprint (submitFeedback db uid payload).1
      = [r1] ∧ r1.value = some value ∧ r1.source = feedbackSrc fd ∧
      r1.confidence = feedbackConf fd := by
    cases hu : uaFor uid fd.fingerprint db with
    | nil =>
      rw [hu] at hua1
      exact ⟨_, hua1, rfl, rfl, rfl⟩
    | cons r0 rest =>
      rw [hu, List.length_cons] at huniq
      have hr0 : rest = [] := List.length_eq_zero.mp (by omega)
      subst hr0
      rw [hu] at hua1
      exact ⟨_, hua1, rfl, rfl, rfl⟩
  obtain ⟨r1, hr1, hrv, hrs, hrc⟩ := hUA
  rw [hr1] at hua2
  have hSP : ∃ s1, spFor (feedbackSelKey payload.ats fd sel)
      (submitFeedback db uid payload).1 = [s1] := by
    cases hs : spFor (feedbackSelKey payload.ats fd sel) db with
    | nil =>
      rw [hs] at hsp1
      exact ⟨_, hsp1⟩
    | cons s0 rest2 =>
      rw [hs, List.length_cons] at hspuniq
      have hs0 : rest2 = [] := List.length_eq_zero.mp (by omega)
      subst hs0
      rw [hs] at hsp1
      exact ⟨_, hsp1⟩
  obtain ⟨s1, hs1⟩ := hSP
  rw [hs1] at hsp2
  exact ⟨r1, s1, hr1, hrv, hrs, hrc, hs1, hua2, hsp2⟩

theorem C7_feedback_upsert_witness :
    ∃ r1 s1,
      uaFor 1 c7Fd.fingerprint (submitFeedback { } 1 c7Payload).1 = [r1] ∧
      r1.value = some "user@x.com" ∧ r1.source = feedbackSrc c7Fd ∧
      r1.confidence = feedbackConf c7Fd ∧
      spFor (feedbackSelKey c7Payload.ats c7Fd "#email")
        (submitFeedback { } 1 c7Payload).1 = [s1] ∧
      uaFor 1 c7Fd.fingerprint
          (submitFeedback (submitFeedback { } 1 c7Payload).1 1 c7Payload).1 =
        [{ r1 with
           value := some "user@x.com"
           source := feedbackSrc c7Fd
           confidence := feedbackConf c7Fd
           used_count := r1.used_count + 1 }] ∧
      spFor (feedbackSelKey c7Payload.ats c7Fd "#email")
          (submitFeedback (submitFeedback { } 1 c7Payload).1 1 c7Payload).1 =
        [{ s1 with success_count := s1.success_count + 1 }] :=
  C7_feedback_upsert { } 1 c7Payload c7Fd [] [] "user@x.com" "#email" rfl
    (by simp) (by simp) rfl (by decide) (by decide) (by decide) (by decide)
    (by decide)

end HireMate
